import Mathlib

/-!
A formal model of the spreadsheet replication engine implemented in
`copy_dashboard_to_sheets.py` (with the retry helpers of `csv_to_sheets.py`),
together with proofs about dimension conversion, range parsing, color
translation, retry classification, conditional-format translation, chart
header detection, orchestration order, destination provisioning, and
trailing-data-row search.  Python strings are modelled as `List Char`,
Python floats as `ℚ`, and raised exceptions as `Except.error`.
-/

namespace SheetsRepl

/-- Convert a Lean string literal to the `List Char` representation used
throughout the model. -/
def strL (s : String) : List Char := s.toList

deriving instance DecidableEq for Except

/-- ASCII decimal digit, the case of Python's `str.isdigit` relevant here. -/
def isAsciiDigit (c : Char) : Bool := 48 ≤ c.toNat && c.toNat ≤ 57

/-- ASCII uppercase letter. -/
def isUpperAlpha (c : Char) : Bool := 65 ≤ c.toNat && c.toNat ≤ 90

/-- ASCII lowercase letter. -/
def isLowerAlpha (c : Char) : Bool := 97 ≤ c.toNat && c.toNat ≤ 122

/-- ASCII letter, the case of Python's `str.isalpha` relevant here. -/
def isAsciiAlpha (c : Char) : Bool := isUpperAlpha c || isLowerAlpha c

/-- ASCII whitespace, the characters stripped by Python's `str.strip()`. -/
def isSpaceChar (c : Char) : Bool :=
  c.toNat = 32 || c.toNat = 9 || c.toNat = 10 || c.toNat = 13 ||
    c.toNat = 11 || c.toNat = 12

/-- Uppercasing of a single ASCII character, as in Python's `str.upper`. -/
def charUpper (c : Char) : Char :=
  if 97 ≤ c.toNat && c.toNat ≤ 122 then Char.ofNat (c.toNat - 32) else c

/-- Lowercasing of a single ASCII character, as in Python's `str.lower`. -/
def charLower (c : Char) : Char :=
  if 65 ≤ c.toNat && c.toNat ≤ 90 then Char.ofNat (c.toNat + 32) else c

/-- Drop the longest suffix of characters satisfying `p`. -/
def dropTrailing (p : Char → Bool) (l : List Char) : List Char :=
  (l.reverse.dropWhile p).reverse

/-- Python's `str.strip()` with no argument: remove surrounding whitespace. -/
def pyStrip (l : List Char) : List Char :=
  dropTrailing isSpaceChar (l.dropWhile isSpaceChar)

/-- Python's `str.lower()` on ASCII text. -/
def pyLower (l : List Char) : List Char := l.map charLower

/-- The apostrophe character, written via its code point. -/
def quoteChar : Char := Char.ofNat 39

/-- Python's `str.strip(c)` for a single strip character `c`: remove all
leading and trailing occurrences of `c`. -/
def stripChar (c : Char) (l : List Char) : List Char :=
  dropTrailing (fun x => x == c) (l.dropWhile (fun x => x == c))

/-- Split a character list at the first occurrence of `sep`, as Python's
`str.split(sep, 1)` does when the separator occurs; `none` when it does not. -/
def splitFirst (sep : Char) : List Char → Option (List Char × List Char)
  | [] => none
  | c :: rest =>
    if c = sep then some ([], rest)
    else
      match splitFirst sep rest with
      | none => none
      | some (a, b) => some (c :: a, b)

/-- Membership test for a character, Python's `c in s`. -/
def containsChar (c : Char) (l : List Char) : Bool := l.any (fun x => x == c)

/-- Whether `pat` is an initial segment of the second list. -/
def leadsWith : List Char → List Char → Bool
  | [], _ => true
  | _ :: _, [] => false
  | a :: pa, b :: pb => a == b && leadsWith pa pb

/-- Substring test, Python's `pat in s`. -/
def containsSub (pat : List Char) : List Char → Bool
  | [] => pat.isEmpty
  | c :: rest => leadsWith pat (c :: rest) || containsSub pat rest

/-- Python's `str.replace("0x", "")`: delete non-overlapping occurrences of
`0x`, scanning left to right. -/
def remove0x : List Char → List Char
  | '0' :: 'x' :: rest => remove0x rest
  | c :: rest => c :: remove0x rest
  | [] => []

/-- Concatenation of a list of lists. -/
def joinAll {α : Type} : List (List α) → List α
  | [] => []
  | l :: rest => l ++ joinAll rest

/-- Banker's rounding on rationals: the semantics of Python's built-in
`round` (round half to even). -/
def pythonRound (q : ℚ) : ℤ :=
  if q - ⌊q⌋ < 1/2 then ⌊q⌋
  else if 1/2 < q - ⌊q⌋ then ⌊q⌋ + 1
  else if ⌊q⌋ % 2 = 0 then ⌊q⌋ else ⌊q⌋ + 1

/-- Model of `convert_dimension_size_to_pixels` from
`copy_dashboard_to_sheets.py`: row heights are points mapped through
`int(round(value * 96 / 72))`, column widths are source units mapped through
`int(round(value * 7 + 5))`; a `None` size yields `None`. -/
def convert_dimension_size_to_pixels (value : Option ℚ) (is_row : Bool) :
    Option ℤ :=
  match value with
  | none => none
  | some v =>
    if is_row then some (pythonRound (v * 96 / 72))
    else some (pythonRound (v * 7 + 5))

/-- Model of `emu_to_pixels`: EMU extents map through
`int(round(emu * 96 / 914400))`, with falsy input (`None` or `0`) yielding
`None`. -/
def emu_to_pixels (emu : Option ℕ) : Option ℤ :=
  match emu with
  | none => none
  | some v =>
    if v = 0 then none else some (pythonRound ((v : ℚ) * 96 / 914400))

/-- Positional value of an uppercase letter interpreted as a base-26 digit,
`A = 1`. -/
def letterVal (c : Char) : ℕ := c.toNat - 64

/-- Base-26 value of a column-letter string with `A = 1` and no zero digit. -/
def colIndexBase26 (l : List Char) : ℕ :=
  l.foldl (fun acc c => acc * 26 + letterVal c) 0

/-- Model of openpyxl's `column_index_from_string`: the uppercased input is
looked up in a cache keyed by the column names `A`..`ZZZ`, so any string that
is not one to three letters raises (`ValueError`), and a valid string yields
its base-26 value. -/
def column_index_from_string (l : List Char) : Except Unit ℕ :=
  let u := l.map charUpper
  if u.all isUpperAlpha && decide (1 ≤ u.length) && decide (u.length ≤ 3) then
    .ok (colIndexBase26 u)
  else .error ()

/-- Decimal value of a digit character. -/
def digitVal (c : Char) : ℕ := c.toNat - 48

/-- Decimal value of a digit string. -/
def decValue (l : List Char) : ℕ :=
  l.foldl (fun acc c => acc * 10 + digitVal c) 0

/-- Python's `int(s)` on a string that was filtered down to digit characters:
a nonempty all-digit string yields its value, anything else raises. -/
def pyIntOfDigits (l : List Char) : Except Unit ℕ :=
  if !l.isEmpty && l.all isAsciiDigit then .ok (decValue l) else .error ()

/-- Column and row of one endpoint of a range reference, scanning the
endpoint's alphabetic characters as column letters and its digit characters
as the row number (the per-endpoint body of `parse_range_reference`); either
scan raises on a malformed token. -/
def parse_cell_tokens (cell : List Char) : Except Unit (ℕ × ℕ) := do
  let c ← column_index_from_string (cell.filter isAsciiAlpha)
  let r ← pyIntOfDigits (cell.filter isAsciiDigit)
  return (c, r)

/-- Canonical 1-based inclusive range reference, the tuple returned by
`parse_range_reference`. -/
structure RangeRef where
  sheet : List Char
  rowStart : ℤ
  rowEnd : ℤ
  colStart : ℤ
  colEnd : ℤ
deriving DecidableEq, Repr

/-- Model of `parse_range_reference`: returns `.ok none` where the Python
function returns `None` (empty input, or no `!` separator), `.ok (some r)`
where it returns a tuple, and `.error ()` where it raises an uncaught
exception (malformed row or column tokens in an endpoint). -/
def parse_range_reference (ref : List Char) : Except Unit (Option RangeRef) :=
  if ref.isEmpty then .ok none
  else
    match splitFirst '!' ref with
    | none => .ok none
    | some (sheetPart, cellPart) =>
      let sheet_name := stripChar quoteChar sheetPart
      let cellRange :=
        if containsChar ':' cellPart then cellPart
        else cellPart ++ ':' :: cellPart
      let cellRange := cellRange.filter (fun c => !(c == '$'))
      match splitFirst ':' cellRange with
      | none => .ok none
      | some (startCell, endCell) => do
        let s ← parse_cell_tokens startCell
        let e ← parse_cell_tokens endCell
        return some ⟨sheet_name, (s.2 : ℤ), (e.2 : ℤ), (s.1 : ℤ), (e.1 : ℤ)⟩

/-- An RGB color with `[0,1]`-scaled channels, as built by `rgb_to_color`. -/
structure Color where
  red : ℚ
  green : ℚ
  blue : ℚ
deriving DecidableEq, Repr

/-- Hexadecimal digit test for Python's `int(s, 16)`. -/
def isHexDigitChar (c : Char) : Bool :=
  isAsciiDigit c || (97 ≤ c.toNat && c.toNat ≤ 102) ||
    (65 ≤ c.toNat && c.toNat ≤ 70)

/-- Value of a hexadecimal digit character. -/
def hexVal (c : Char) : ℕ :=
  if isAsciiDigit c then digitVal c
  else if 97 ≤ c.toNat && c.toNat ≤ 102 then c.toNat - 87
  else c.toNat - 55

/-- Python's `int(s, 16)` on a two-character slice: both characters
hexadecimal digits, or one digit with surrounding whitespace or a sign;
anything else raises. -/
def pyIntHex2 (a b : Char) : Except Unit ℤ :=
  if isHexDigitChar a && isHexDigitChar b then
    .ok ((16 * hexVal a + hexVal b : ℕ) : ℤ)
  else if isSpaceChar a && isHexDigitChar b then .ok ((hexVal b : ℕ) : ℤ)
  else if isHexDigitChar a && isSpaceChar b then .ok ((hexVal a : ℕ) : ℤ)
  else if a == '+' && isHexDigitChar b then .ok ((hexVal b : ℕ) : ℤ)
  else if a == '-' && isHexDigitChar b then .ok (-((hexVal b : ℕ) : ℤ))
  else .error ()

/-- The normalization performed by `rgb_to_color` before length dispatch:
delete `0x` and `#`, and drop the two alpha characters of a length-8 value. -/
def rgbNormalize (s : List Char) : List Char :=
  let t := (remove0x s).filter (fun c => !(c == '#'))
  if t.length = 8 then t.drop 2 else t

/-- Model of `rgb_to_color`: `None` input and the empty string yield
`.ok none`; after normalization, a remaining length other than 6 yields
`.ok none`; a length-6 remainder is parsed as three 2-digit hex pairs scaled
into `[0,1]`, raising (`.error`) exactly where Python's `int(_, 16)`
raises. -/
def rgb_to_color (rgb : Option (List Char)) : Except Unit (Option Color) :=
  match rgb with
  | none => .ok none
  | some s =>
    if s.isEmpty then .ok none
    else
      let t := rgbNormalize s
      if t.length = 6 then
        match t.take 2, (t.drop 2).take 2, t.drop 4 with
        | [a, b], [c, d], [e, f] => do
          let r ← pyIntHex2 a b
          let g ← pyIntHex2 c d
          let bl ← pyIntHex2 e f
          return some ⟨(r : ℚ) / 255, (g : ℚ) / 255, (bl : ℚ) / 255⟩
        | _, _, _ => .error ()
      else .ok none

/-- The observable data of a caught API error: the HTTP status (when one is
attached to the exception) and the exception's message text. -/
structure ErrInfo where
  status : Option ℕ
  text : List Char
deriving DecidableEq, Repr

/-- Outcome of one invocation of the wrapped callable: a value or a raised
API error. -/
inductive CallResult (α : Type) where
  | ok (a : α)
  | err (e : ErrInfo)
deriving DecidableEq, Repr

/-- Observable behaviour of a retry wrapper: the returned value, an error
propagated out of the loop body, or loop exhaustion re-raising the last
rate-limit error, in each case together with the sleep delays performed. -/
inductive RetryResult (α : Type) where
  | success (a : α) (delays : List ℕ)
  | raised (e : ErrInfo) (delays : List ℕ)
  | exhausted (e : Option ErrInfo) (delays : List ℕ)
deriving DecidableEq, Repr

/-- The rate-limit classification of `_retry_drive` in `csv_to_sheets.py`:
status 429 or 403, and the message carries `rateLimitExceeded`,
`userRateLimitExceeded`, `quota` (case-insensitively), or `429`. -/
def drive_is_rate_limit (e : ErrInfo) : Bool :=
  (e.status == some 429 || e.status == some 403) &&
    (containsSub (strL "rateLimitExceeded") e.text ||
     containsSub (strL "userRateLimitExceeded") e.text ||
     containsSub (strL "quota") (pyLower e.text) ||
     containsSub (strL "429") e.text)

/-- The rate-limit classification of `_retry_gspread` in `csv_to_sheets.py`:
status 429, or `429` occurring in the message. -/
def gspread_is_rate_limit (e : ErrInfo) : Bool :=
  e.status == some 429 || containsSub (strL "429") e.text

/-- The rate-limit classification as the specification words it: HTTP 429,
or a 403 carrying a quota/rate-limit marker. -/
def spec_is_rate_limit (e : ErrInfo) : Bool :=
  e.status == some 429 ||
    (e.status == some 403 &&
      (containsSub (strL "rateLimitExceeded") e.text ||
       containsSub (strL "userRateLimitExceeded") e.text ||
       containsSub (strL "quota") (pyLower e.text)))

/-- The shared retry loop body of `_retry_drive` and `_retry_gspread`:
`attempt` is the current 0-based attempt index, the remaining-iteration
counter drives `for attempt in range(max_retries)`, and `calls` gives the
outcome of each attempt of the wrapped callable. -/
def retryFrom {α : Type} (isRL : ErrInfo → Bool) (base : ℕ)
    (calls : ℕ → CallResult α) (attempt : ℕ) (delays : List ℕ)
    (last : Option ErrInfo) : ℕ → RetryResult α
  | 0 => .exhausted last delays
  | r + 1 =>
    match calls attempt with
    | .ok a => .success a delays
    | .err e =>
      if isRL e then
        retryFrom isRL base calls (attempt + 1)
          (delays ++ [base * 2 ^ attempt]) (some e) r
      else .raised e delays

/-- A retry wrapper with classifier `isRL`, bounded by `maxRetries`
attempts, sleeping `base * 2 ^ attempt` after each rate-limited attempt. -/
def retry_loop {α : Type} (isRL : ErrInfo → Bool) (maxRetries base : ℕ)
    (calls : ℕ → CallResult α) : RetryResult α :=
  retryFrom isRL base calls 0 [] none maxRetries

/-- Model of `_retry_drive` (configured attempt bound and base delay). -/
def retry_drive {α : Type} (maxRetries base : ℕ)
    (calls : ℕ → CallResult α) : RetryResult α :=
  retry_loop drive_is_rate_limit maxRetries base calls

/-- Model of `_retry_gspread` (configured attempt bound and base delay). -/
def retry_gspread {α : Type} (maxRetries base : ℕ)
    (calls : ℕ → CallResult α) : RetryResult α :=
  retry_loop gspread_is_rate_limit maxRetries base calls

/-- A cell of a `values.get` response row; `none` models JSON null. -/
def cellHasData (c : Option (List Char)) : Bool :=
  !(c == none) && !(c == some [])

/-- Whether a row has a data cell among its first `maxCols` cells, the
predicate of the loop in `find_last_n_data_rows`. -/
def rowHasData (maxCols : ℕ) (row : List (Option (List Char))) : Bool :=
  (row.take maxCols).any cellHasData

/-- The `rows_with_data` accumulator of `find_last_n_data_rows`: 1-based
indices `≥ startRow` of rows with data, `idx` being the index of the first
row of the remaining list. -/
def rows_with_data (startRow maxCols : ℕ) :
    ℕ → List (List (Option (List Char))) → List ℕ
  | _, [] => []
  | idx, r :: rs =>
    (if startRow ≤ idx && rowHasData maxCols r then [idx] else []) ++
      rows_with_data startRow maxCols (idx + 1) rs

/-- Model of `find_last_n_data_rows`: collect the 1-based indices of rows at
index `≥ startRow` having a data cell among the first `maxCols` cells;
return `none` when there are none, else the first and last of the last `n`
such indices (`n = 0` reproduces Python's `lst[-0:] = lst`). -/
def find_last_n_data_rows (values : List (List (Option (List Char))))
    (n startRow maxCols : ℕ) : Option (ℕ × ℕ) :=
  let rows := rows_with_data startRow maxCols 1 values
  if rows.isEmpty then none
  else
    let selected := if n = 0 then rows else rows.drop (rows.length - n)
    match selected.head?, selected.getLast? with
    | some a, some b => some (a, b)
    | _, _ => none

/-- Decidable statement that some row at 1-based index `≥ startRow` has a
data cell among its first `maxCols` cells. -/
def anyDataRowFrom (startRow maxCols : ℕ)
    (values : List (List (Option (List Char)))) : Bool :=
  (List.range values.length).any fun i =>
    decide (startRow ≤ i + 1) && rowHasData maxCols (values.getD i [])

/-- The remote-side identity of one sheet of the destination document:
title, id, and the frozen-pane counts of its grid properties. -/
structure SheetInfo where
  title : List Char
  sheetId : ℕ
  frozenRows : ℕ
  frozenCols : ℕ
deriving DecidableEq, Repr

/-- A 0-based half-open grid range as produced by `build_grid_range`. -/
structure GridRange where
  sheetId : ℕ
  startRowIndex : ℤ
  endRowIndex : ℤ
  startColumnIndex : ℤ
  endColumnIndex : ℤ
deriving DecidableEq, Repr

/-- The value variant of one translated cell (`build_cell_value`). -/
inductive CellValue where
  | formulaValue (s : List Char)
  | boolValue (b : Bool)
  | numberValue (q : ℚ)
  | stringValue (s : List Char)
deriving DecidableEq, Repr

/-- One translated cell as placed into `updateCells` rows: the optional
`userEnteredValue` and (abstracted) `userEnteredFormat` payloads. -/
structure CellData where
  userEnteredValue : Option CellValue
  userEnteredFormat : Option (List Char)
deriving DecidableEq, Repr

/-- The overlay position of a chart (`build_chart_position`). -/
structure ChartPosition where
  sheetId : ℕ
  rowIndex : ℕ
  columnIndex : ℕ
  widthPixels : Option ℤ
  heightPixels : Option ℤ
deriving DecidableEq, Repr

/-- One request of a `batchUpdate` body, mirroring the wire shapes used by
`copy_dashboard_to_sheets.py`; `updateSheetGrid` is `updateSheetProperties`
with fields `gridProperties(rowCount,columnCount)` and `updateSheetFrozen`
is `updateSheetProperties` with the frozen-count fields. -/
inductive Request where
  | updateSheetTitle (sheetId : ℕ) (title : List Char)
  | updateSheetGrid (sheetId : ℕ) (rowCount colCount : ℕ)
  | updateSheetFrozen (sheetId : ℕ) (frozenRows frozenCols : ℕ)
  | addSheet (title : List Char)
  | deleteSheet (sheetId : ℕ)
  | updateCells (range : GridRange) (rows : List (List CellData))
  | updateDimensionProperties (sheetId : ℕ) (isRows : Bool)
      (startIndex endIndex : ℤ) (pixelSize : ℤ)
  | mergeCells (range : GridRange)
  | addConditionalFormatRule (range : GridRange) (formula : List Char)
      (bg : Option Color) (index : ℕ)
  | addChart (title : List Char) (domain : GridRange)
      (series : List GridRange) (xAxis yAxis : List Char)
      (headerCount : ℕ) (position : ChartPosition)
deriving DecidableEq, Repr

/-- One remote call issued by the engine, in issue order. -/
inductive RemoteCall where
  | getMetadata
  | batchUpdate (reqs : List Request)
  | copyTo (sourceSheetId : ℕ)
deriving DecidableEq, Repr

/-- The remote document state the model tracks: its sheets and a fresh-id
counter for sheet creation. -/
structure RunState where
  sheets : List SheetInfo
  fresh : ℕ
deriving DecidableEq, Repr

/-- Effect of one request on the tracked remote state. -/
def applyRequest (st : RunState) (r : Request) : RunState :=
  match r with
  | .addSheet t => ⟨st.sheets ++ [⟨t, st.fresh, 0, 0⟩], st.fresh + 1⟩
  | .deleteSheet i => ⟨st.sheets.filter (fun s => !(s.sheetId == i)), st.fresh⟩
  | .updateSheetTitle i t =>
    ⟨st.sheets.map (fun s => if s.sheetId == i then { s with title := t } else s),
      st.fresh⟩
  | .updateSheetFrozen i fr fc =>
    ⟨st.sheets.map (fun s =>
        if s.sheetId == i then { s with frozenRows := fr, frozenCols := fc } else s),
      st.fresh⟩
  | _ => st

/-- Effect of one `batchUpdate` body on the tracked remote state. -/
def applyBatch (st : RunState) (reqs : List Request) : RunState :=
  reqs.foldl applyRequest st

/-- Effect of a `copyTo` (sheet duplication) on the tracked remote state,
returning the new sheet's id. -/
def applyCopyTo (st : RunState) (srcId : ℕ) : RunState × ℕ :=
  let newId := st.fresh
  match st.sheets.find? (fun s => s.sheetId == srcId) with
  | some src =>
    (⟨st.sheets ++ [{ src with sheetId := newId }], newId + 1⟩, newId)
  | none => (⟨st.sheets, newId + 1⟩, newId)

/-- Model of `get_sheet_id_by_title`: the id of the first sheet with the
given title. -/
def get_sheet_id_by_title (sheets : List SheetInfo) (title : List Char) :
    Option ℕ :=
  (sheets.find? (fun s => s.title == title)).map SheetInfo.sheetId

/-- Model of `get_sheet_properties_by_title`. -/
def get_sheet_properties_by_title (sheets : List SheetInfo)
    (title : List Char) : Option SheetInfo :=
  sheets.find? (fun s => s.title == title)

/-- The `(min_col, min_row, max_col, max_row)` tuple that openpyxl's
`range_boundaries` returns for a range string (1-based inclusive). -/
structure Boundaries where
  minCol : ℕ
  minRow : ℕ
  maxCol : ℕ
  maxRow : ℕ
deriving DecidableEq, Repr

/-- One openpyxl conditional-formatting rule: its `type`, `formula` list and
differential-style index. -/
structure CFRule where
  type : List Char
  formula : List (List Char)
  dxfId : Option ℕ
deriving DecidableEq, Repr

/-- One `sqref → rules` entry of `ws.conditional_formatting._cf_rules`. -/
structure CFBlock where
  bounds : Boundaries
  rules : List CFRule
deriving DecidableEq, Repr

/-- The fill of a differential style: its pattern type and the `rgb`
attribute of its `fgColor` (absent when `getattr` defaults to `None`). -/
structure Fill where
  patternType : Option (List Char)
  fgRgb : Option (List Char)
deriving DecidableEq, Repr

/-- A differential style (`dxf`), of which only the fill is consulted. -/
structure Dxf where
  fill : Option Fill
deriving DecidableEq, Repr

/-- One chart series as read from the source chart object model: the
reference strings of `ser.val.numRef.f`, `ser.cat.numRef.f`,
`ser.cat.strRef.f` and `ser.title.strRef.f` (absent where the source object
chain is absent). -/
structure Series where
  valF : Option (List Char)
  catNumF : Option (List Char)
  catStrF : Option (List Char)
  titleF : Option (List Char)
deriving DecidableEq, Repr

/-- One source chart: title text, series, and anchor cell plus EMU extent. -/
structure Chart where
  title : List Char
  series : List Series
  anchorRow : ℕ
  anchorCol : ℕ
  extCx : Option ℕ
  extCy : Option ℕ
deriving DecidableEq, Repr

/-- The data the engine reads from one openpyxl worksheet: grid extent, the
translated per-cell payloads (`build_cell_value`/`build_cell_format` results
for `ws.cell(r, c)`), explicit dimension sizes, merged ranges,
conditional-formatting rule blocks with the workbook's differential styles,
and embedded charts. -/
structure Worksheet where
  maxRow : ℕ
  maxCol : ℕ
  cellData : ℕ → ℕ → CellData
  columnDimensions : List (List Char × Option ℚ)
  rowDimensions : List (ℕ × Option ℚ)
  mergedRanges : List Boundaries
  cfBlocks : List CFBlock
  dxfs : List Dxf
  charts : List Chart

/-- Model of `build_rows`: the translated cell rectangle and the populated
extent, with openpyxl's `or 1` defaulting of an empty extent. -/
def build_rows (ws : Worksheet) : List (List CellData) × ℕ × ℕ :=
  let mr := if ws.maxRow = 0 then 1 else ws.maxRow
  let mc := if ws.maxCol = 0 then 1 else ws.maxCol
  (((List.range mr).map fun r => (List.range mc).map fun c =>
      ws.cellData (r + 1) (c + 1)), mr, mc)

/-- Model of `build_grid_range`: 1-based inclusive bounds to a 0-based
half-open `GridRange`. -/
def build_grid_range (sheetId : ℕ) (startRow endRow startCol endCol : ℤ) :
    GridRange :=
  ⟨sheetId, startRow - 1, endRow, startCol - 1, endCol⟩

/-- The column-dimension branch of `build_dimension_requests` for one
`column_dimensions` entry; `column_index_from_string` raises on an invalid
letter key, which propagates. -/
def col_dim_request (sheetId : ℕ) (p : List Char × Option ℚ) :
    Except Unit (List Request) :=
  match p.2 with
  | none => .ok []
  | some w =>
    if w = 0 then .ok []
    else
      match column_index_from_string p.1 with
      | .error e => .error e
      | .ok ci =>
        match convert_dimension_size_to_pixels (some w) false with
        | none => .ok []
        | some px =>
          if px = 0 then .ok []
          else
            .ok [.updateDimensionProperties sheetId false
                  ((ci : ℤ) - 1) (ci : ℤ) px]

/-- The row-dimension branch of `build_dimension_requests` for one
`row_dimensions` entry. -/
def row_dim_request (sheetId : ℕ) (p : ℕ × Option ℚ) : List Request :=
  match p.2 with
  | none => []
  | some h =>
    if h = 0 then []
    else
      match convert_dimension_size_to_pixels (some h) true with
      | none => []
      | some px =>
        if px = 0 then []
        else
          [.updateDimensionProperties sheetId true
            ((p.1 : ℤ) - 1) (p.1 : ℤ) px]

/-- The column loop of `build_dimension_requests`. -/
def col_dim_requests (sheetId : ℕ) :
    List (List Char × Option ℚ) → Except Unit (List Request)
  | [] => .ok []
  | p :: rest => do
    let a ← col_dim_request sheetId p
    let b ← col_dim_requests sheetId rest
    .ok (a ++ b)

/-- Model of `build_dimension_requests`: explicit column widths first, then
explicit row heights, each translated to an `updateDimensionProperties`
request when the pixel size is truthy. -/
def build_dimension_requests (ws : Worksheet) (sheetId : ℕ) :
    Except Unit (List Request) := do
  let cols ← col_dim_requests sheetId ws.columnDimensions
  .ok (cols ++ joinAll (ws.rowDimensions.map (row_dim_request sheetId)))

/-- Model of `build_merge_requests`: each merged range becomes one
`mergeCells` request with merge type `MERGE_ALL`. -/
def build_merge_requests (ws : Worksheet) (sheetId : ℕ) : List Request :=
  ws.mergedRanges.map fun b =>
    .mergeCells ⟨sheetId, (b.minRow : ℤ) - 1, (b.maxRow : ℤ),
      (b.minCol : ℤ) - 1, (b.maxCol : ℤ)⟩

/-- Grid range of one conditional-formatting block. -/
def cf_grid_range (sheetId : ℕ) (b : Boundaries) : GridRange :=
  ⟨sheetId, (b.minRow : ℤ) - 1, (b.maxRow : ℤ), (b.minCol : ℤ) - 1,
    (b.maxCol : ℤ)⟩

/-- The fill-color resolution of `build_conditional_format_requests`: the
rule's differential style, when it has a solid fill, has its foreground
color translated by `rgb_to_color` (whose exceptions propagate); a
`dxfId` out of range of the style list makes `dxfs[rule.dxfId]` raise an
uncaught `IndexError`, which propagates. -/
def cf_fill_color (dxfs : List Dxf) (rule : CFRule) :
    Except Unit (Option Color) :=
  match rule.dxfId with
  | none => .ok none
  | some i =>
    match dxfs.get? i with
    | none => .error ()
    | some d =>
      match d.fill with
      | none => .ok none
      | some f =>
        if f.patternType == some (strL "solid") then rgb_to_color f.fgRgb
        else .ok none

/-- Normalization of a conditional-format formula: prepend `=` when the
text does not already start with it. -/
def normalize_formula (f : List Char) : List Char :=
  if leadsWith (strL "=") f then f else '=' :: f

/-- The per-rule body of `build_conditional_format_requests`: rules whose
type is not `expression` or whose formula list is empty are skipped; a
translated rule yields one `addConditionalFormatRule` request at index 0. -/
def translate_cf_rule (dxfs : List Dxf) (gr : GridRange) (rule : CFRule) :
    Except Unit (List Request) :=
  match rule.formula with
  | [] => .ok []
  | f0 :: _ =>
    if rule.type == strL "expression" then do
      let bg ← cf_fill_color dxfs rule
      .ok [.addConditionalFormatRule gr (normalize_formula f0) bg 0]
    else .ok []

/-- The rule loop of `build_conditional_format_requests` over one block. -/
def translate_cf_rules (dxfs : List Dxf) (gr : GridRange) :
    List CFRule → Except Unit (List Request)
  | [] => .ok []
  | r :: rest => do
    let a ← translate_cf_rule dxfs gr r
    let b ← translate_cf_rules dxfs gr rest
    .ok (a ++ b)

/-- The block loop of `build_conditional_format_requests`. -/
def build_cf_blocks (sheetId : ℕ) (dxfs : List Dxf) :
    List CFBlock → Except Unit (List Request)
  | [] => .ok []
  | b :: rest => do
    let a ← translate_cf_rules dxfs (cf_grid_range sheetId b.bounds) b.rules
    let r ← build_cf_blocks sheetId dxfs rest
    .ok (a ++ r)

/-- Model of `build_conditional_format_requests`. -/
def build_conditional_format_requests (ws : Worksheet) (sheetId : ℕ) :
    Except Unit (List Request) :=
  build_cf_blocks sheetId ws.dxfs ws.cfBlocks

/-- The translation guard of `build_conditional_format_requests`: a rule is
translated exactly when its type is `expression` and its formula list is
nonempty. -/
def cf_rule_qualifies (rule : CFRule) : Bool :=
  rule.type == strL "expression" && !rule.formula.isEmpty

/-- Model of `get_series_value_range` and friends: parse the reference
string, with any raised exception caught and turned into `None`. -/
def parsedRef (f : Option (List Char)) : Option RangeRef :=
  match f with
  | none => none
  | some s =>
    match parse_range_reference s with
    | .ok r => r
    | .error _ => none

/-- Model of `get_series_value_range`. -/
def get_series_value_range (s : Series) : Option RangeRef := parsedRef s.valF

/-- Model of `get_series_title_cell`. -/
def get_series_title_cell (s : Series) : Option RangeRef := parsedRef s.titleF

/-- Model of `get_series_category_range`: numeric reference first, then
string reference. -/
def get_series_category_range (s : Series) : Option RangeRef :=
  match s.catNumF with
  | some f => parsedRef (some f)
  | none => parsedRef s.catStrF

/-- The chart-title allow-list check: a nonempty allow-list that does not
contain the title blocks the chart, matching the truthiness test on
`allowed_chart_titles`. -/
def allowedBlocks (allowed : Option (List (List Char))) (t : List Char) :
    Bool :=
  match allowed with
  | some l => !l.isEmpty && !(l.contains t)
  | none => false

/-- The axis-title table `title_axis_map` of `copy_sheet_from_excel`. -/
def title_axis_map (t : List Char) : Option (List Char × List Char) :=
  if t == strL "Net Sales (Last 8 Weeks)" then
    some (strL "Week Ending", strL "Sales")
  else if t == strL "Sales vs Labor (Last 8 Weeks)" then
    some (strL "Week Ending", strL "Dollars")
  else none

/-- Model of `build_chart_position`: anchor cell from the source anchor and
pixel extent from `emu_to_pixels`, each extent kept only when truthy. -/
def zero_to_none (o : Option ℤ) : Option ℤ :=
  match o with
  | some 0 => none
  | x => x

/-- Model of `build_chart_position`. -/
def build_chart_position (chart : Chart) (destSheetId : ℕ) : ChartPosition :=
  ⟨destSheetId, chart.anchorRow, chart.anchorCol,
    zero_to_none (emu_to_pixels chart.extCx),
    zero_to_none (emu_to_pixels chart.extCy)⟩

/-- State of the series loop in `copy_sheet_from_excel`: the shared domain
range (set by the first series whose ranges and sheet resolve), the series
ranges collected so far, and the shared `header_count`. -/
structure ChartAcc where
  domain : Option GridRange
  ranges : List GridRange
  header : ℕ
deriving DecidableEq, Repr

/-- One iteration of the series loop of `copy_sheet_from_excel` (lines
721-745): series without resolvable value and category ranges are skipped;
a title cell one row above the value range widens the series start row and
sets `header_count = 1`; the first domain-establishing series additionally
widens the category start row when the title cell is one row above it; a
failed sheet-id lookup skips the rest of the iteration while keeping the
mutations already made. -/
def processSeries (sheets : List SheetInfo) (acc : ChartAcc) (s : Series) :
    ChartAcc :=
  match get_series_value_range s, get_series_category_range s with
  | some valR, some catR =>
    let titleR := get_series_title_cell s
    let (startRow, hdr1) :=
      match titleR with
      | some t =>
        if t.rowStart = valR.rowStart - 1 then (t.rowStart, 1)
        else (valR.rowStart, acc.header)
      | none => (valR.rowStart, acc.header)
    let (domainRes, hdr2) :=
      match acc.domain with
      | some d => (some (some d), hdr1)
      | none =>
        let (catStart, h) :=
          match titleR with
          | some t =>
            if t.rowStart = catR.rowStart - 1 then (t.rowStart, 1)
            else (catR.rowStart, hdr1)
          | none => (catR.rowStart, hdr1)
        match get_sheet_id_by_title sheets catR.sheet with
        | none => (none, h)
        | some dsid =>
          (some (some (build_grid_range dsid catStart catR.rowEnd
            catR.colStart catR.colEnd)), h)
    match domainRes with
    | none => { acc with header := hdr2 }
    | some dom =>
      match get_sheet_id_by_title sheets valR.sheet with
      | none => { domain := dom, ranges := acc.ranges, header := hdr2 }
      | some vsid =>
        { domain := dom,
          ranges := acc.ranges ++
            [build_grid_range vsid startRow valR.rowEnd valR.colStart
              valR.colEnd],
          header := hdr2 }
  | _, _ => acc

/-- The chart loop of `copy_sheet_from_excel` (lines 705-760): charts
blocked by the allow-list or with an unknown title are skipped; a chart
whose series resolve to a domain and at least one range yields one
`addChart` request. -/
def chart_step (sheets : List SheetInfo) (newId : ℕ)
    (allowed : Option (List (List Char))) (acc : List Request)
    (chart : Chart) : List Request :=
  if allowedBlocks allowed chart.title then acc
  else
    match title_axis_map chart.title with
    | none => acc
    | some axes =>
      match (chart.series.foldl (processSeries sheets) ⟨none, [], 0⟩).domain with
      | none => acc
      | some dom =>
        if (chart.series.foldl (processSeries sheets)
            ⟨none, [], 0⟩).ranges.isEmpty then acc
        else
          acc ++ [.addChart chart.title dom
            (chart.series.foldl (processSeries sheets) ⟨none, [], 0⟩).ranges
            axes.1 axes.2
            (chart.series.foldl (processSeries sheets) ⟨none, [], 0⟩).header
            (build_chart_position chart newId)]

def buildChartRequests (sheets : List SheetInfo) (ws : Worksheet)
    (newId : ℕ) (allowed : Option (List (List Char))) : List Request :=
  ws.charts.foldl (chart_step sheets newId allowed) []

/-- Model of `resolve_sheet_name`: exact sheet-name match first, then the
first name equal up to surrounding whitespace and case. -/
def resolve_sheet_name (wb : List (List Char × Worksheet))
    (requested : List Char) : Option (List Char) :=
  if wb.any (fun p => p.1 == requested) then some requested
  else
    match wb.filter
        (fun p => pyLower (pyStrip p.1) == pyLower (pyStrip requested)) with
    | [] => none
    | m :: _ => some m.1

/-- Outcome of the destination-conflict loop of `copy_sheet_from_excel`. -/
inductive ProvOutcome where
  | skipped
  | eof
  | go (dest : List Char)
deriving DecidableEq, Repr

/-- Result of the destination-conflict loop: emitted remote calls, the
remote state after them, and the outcome. -/
structure ProvResult where
  calls : List RemoteCall
  state : RunState
  outcome : ProvOutcome
deriving DecidableEq, Repr

/-- Model of the `while True` conflict loop of `copy_sheet_from_excel`
(lines 600-621): each iteration queries metadata for the destination title;
when it exists, the next interactive input chooses overwrite (delete and
proceed), rename (read a new title and re-evaluate), skip (terminate with no
mutation), or is invalid (re-prompt); exhausting the input stream models
`EOFError` from `input()`. -/
def provisionLoop (st : RunState) : List Char → List (List Char) →
    ProvResult
  | dest, inputs =>
    match get_sheet_id_by_title st.sheets dest with
    | none => ⟨[.getMetadata], st, .go dest⟩
    | some existingId =>
      match inputs with
      | [] => ⟨[.getMetadata], st, .eof⟩
      | action :: rest =>
        let a := pyLower (pyStrip action)
        if a == strL "o" || a == strL "overwrite" then
          ⟨[.getMetadata, .batchUpdate [.deleteSheet existingId]],
            applyBatch st [.deleteSheet existingId], .go dest⟩
        else if a == strL "r" || a == strL "rename" then
          match rest with
          | [] => ⟨[.getMetadata], st, .eof⟩
          | newName :: rest2 =>
            let out := provisionLoop st (pyStrip newName) rest2
            ⟨.getMetadata :: out.calls, out.state, out.outcome⟩
        else if a == strL "s" || a == strL "skip" then
          ⟨[.getMetadata], st, .skipped⟩
        else
          let out := provisionLoop st dest rest
          ⟨.getMetadata :: out.calls, out.state, out.outcome⟩

/-- Output of one `copy_sheet_from_excel` run: the remote calls issued, the
final remote state, and the returned sheet id (`.ok none` for a skip,
`.error` for an uncaught exception or exit). -/
structure CopyOutput where
  calls : List RemoteCall
  state : RunState
  result : Except Unit (Option ℕ)
deriving Repr

/-- Python truthiness of `template_sheet_id` as tested by
`not template_sheet_id` on line 705: falsy when the template lookup found
nothing (`None`) and also when the found template sheet's id is `0`. -/
def template_id_falsy : Option ℕ → Bool
  | none => true
  | some n => n == 0

/-- Phases (2)-(7) of `copy_sheet_from_excel` after the destination sheet
exists (lines 644-792): one batch carrying the grid-size update, the bulk
`updateCells`, dimension, merge and conditional-format requests in that
order; then the chart batch when charts are built and `template_sheet_id`
is falsy (no template found, or the template sheet's id is `0`); then the
frozen-pane restore batch when the template had frozen panes. -/
def copy_phases (st : RunState) (ws : Worksheet) (newId : ℕ)
    (template_sheet_id : Option ℕ) (fr fc : ℕ) (build_charts : Bool)
    (allowed : Option (List (List Char))) (callsAcc : List RemoteCall) :
    CopyOutput :=
  let rowsExtent := build_rows ws
  let gridReq : Request :=
    .updateSheetGrid newId rowsExtent.2.1 rowsExtent.2.2
  let cellsReq : Request :=
    .updateCells ⟨newId, 0, (rowsExtent.2.1 : ℤ), 0, (rowsExtent.2.2 : ℤ)⟩
      rowsExtent.1
  match build_dimension_requests ws newId with
  | .error e => ⟨callsAcc, st, .error e⟩
  | .ok dims =>
    let merges := build_merge_requests ws newId
    match build_conditional_format_requests ws newId with
    | .error e => ⟨callsAcc, st, .error e⟩
    | .ok cfs =>
      let mainReqs := [gridReq, cellsReq] ++ dims ++ merges ++ cfs
      let st1 := applyBatch st mainReqs
      let chartReqs :=
        if build_charts && template_id_falsy template_sheet_id then
          buildChartRequests st1.sheets ws newId allowed
        else []
      let chartCalls : List RemoteCall :=
        if chartReqs.isEmpty then [] else [.batchUpdate chartReqs]
      let st2 := applyBatch st1 chartReqs
      let restoreCalls : List RemoteCall :=
        if fr ≠ 0 || fc ≠ 0 then
          [.batchUpdate [.updateSheetFrozen newId fr fc]]
        else []
      let st3 := applyBatch st2
        (if fr ≠ 0 || fc ≠ 0 then [Request.updateSheetFrozen newId fr fc]
         else [])
      ⟨callsAcc ++ [RemoteCall.batchUpdate mainReqs] ++ chartCalls ++
          restoreCalls,
        st3, .ok (some newId)⟩

/-- The provisioning tail of `copy_sheet_from_excel` (lines 623-703): when a
chart-template title is supplied and found, the template sheet is duplicated
and renamed and its frozen-pane counts are read (and cleared when nonzero);
otherwise an empty sheet is added; then the phase batches run. -/
def copy_main (st0 : RunState) (ws : Worksheet) (dest : List Char)
    (chart_template_sheet : List Char) (build_charts : Bool)
    (allowed : Option (List (List Char))) : CopyOutput :=
  let tmplCalls : List RemoteCall :=
    if chart_template_sheet.isEmpty then [] else [.getMetadata]
  let template_props :=
    if chart_template_sheet.isEmpty then none
    else get_sheet_properties_by_title st0.sheets chart_template_sheet
  match template_props with
  | some props =>
    let dup := applyCopyTo st0 props.sheetId
    let renameReqs : List Request := [.updateSheetTitle dup.2 dest]
    let st2 := applyBatch dup.1 renameReqs
    let createCalls : List RemoteCall :=
      [.copyTo props.sheetId, .batchUpdate renameReqs]
    let fr := props.frozenRows
    let fc := props.frozenCols
    let clearCalls : List RemoteCall :=
      if fr ≠ 0 || fc ≠ 0 then [.batchUpdate [.updateSheetFrozen dup.2 0 0]]
      else []
    let st3 := applyBatch st2
      (if fr ≠ 0 || fc ≠ 0 then [Request.updateSheetFrozen dup.2 0 0]
       else [])
    copy_phases st3 ws dup.2 (some props.sheetId) fr fc build_charts
      allowed (tmplCalls ++ createCalls ++ clearCalls)
  | none =>
    let addReqs : List Request := [.addSheet dest]
    let newId := st0.fresh
    let st1 := applyBatch st0 addReqs
    copy_phases st1 ws newId none 0 0 build_charts allowed
      (tmplCalls ++ [RemoteCall.batchUpdate addReqs])

/-- The body of `copy_sheet_from_excel` after the source sheet name has been
resolved: fetch the worksheet, run the conflict loop, and on `go` run the
copy proper. -/
def copy_after_resolve (st : RunState) (wb : List (List Char × Worksheet))
    (resolved dest chart_template_sheet : List Char) (build_charts : Bool)
    (allowed : Option (List (List Char))) (inputs : List (List Char)) :
    CopyOutput :=
  match wb.find? (fun p => p.1 == resolved) with
  | none => ⟨[], st, .error ()⟩
  | some p =>
    let pr := provisionLoop st dest inputs
    match pr.outcome with
    | .skipped => ⟨pr.calls, pr.state, .ok none⟩
    | .eof => ⟨pr.calls, pr.state, .error ()⟩
    | .go dest2 =>
      let out := copy_main pr.state p.2 dest2 chart_template_sheet
        build_charts allowed
      ⟨pr.calls ++ out.calls, out.state, out.result⟩

/-- Model of `copy_sheet_from_excel`: resolve the source sheet name (with
one interactive correction, a blank or unresolvable correction skipping the
copy), then provision the destination and run the phase batches.  `inputs`
is the interactive input stream shared by the correction prompt and the
conflict loop. -/
def copy_sheet_from_excel (st : RunState) (wb : List (List Char × Worksheet))
    (source dest chart_template_sheet : List Char) (build_charts : Bool)
    (allowed : Option (List (List Char))) (inputs : List (List Char)) :
    CopyOutput :=
  match resolve_sheet_name wb source with
  | some resolved =>
    copy_after_resolve st wb resolved dest chart_template_sheet build_charts
      allowed inputs
  | none =>
    match inputs with
    | [] => ⟨[], st, .error ()⟩
    | retryName :: rest =>
      let rn := pyStrip retryName
      if rn.isEmpty then ⟨[], st, .ok none⟩
      else
        match resolve_sheet_name wb rn with
        | none => ⟨[], st, .ok none⟩
        | some resolved =>
          copy_after_resolve st wb resolved dest chart_template_sheet
            build_charts allowed rest

/-- Requests of the `batchUpdate` calls of a call list, concatenated in
issue order. -/
def flattenReqs (calls : List RemoteCall) : List Request :=
  joinAll (calls.map fun c =>
    match c with
    | .batchUpdate reqs => reqs
    | _ => [])

/-- The phase number of a request, for the phase-order claim: grid-size
update, bulk cell update, dimension sizes, merges, conditional formats,
charts; requests outside the ordered phases have no number. -/
def phaseOf : Request → Option ℕ
  | .updateSheetGrid _ _ _ => some 1
  | .updateCells _ _ => some 2
  | .updateDimensionProperties _ _ _ _ _ => some 3
  | .mergeCells _ => some 4
  | .addConditionalFormatRule _ _ _ _ => some 5
  | .addChart _ _ _ _ _ _ _ => some 6
  | _ => none

/-- Decidable test that a list of naturals is non-decreasing. -/
def chainLe : List ℕ → Bool
  | [] => true
  | [_] => true
  | a :: b :: t => decide (a ≤ b) && chainLe (b :: t)

/-- A frozen-pane restoration request: a frozen-count update that sets a
nonzero count (the clearing update sets both counts to zero). -/
def isFrozenRestore : Request → Bool
  | .updateSheetFrozen _ fr fc => !(fr == 0 && fc == 0)
  | _ => false

/-- A chart-creation request. -/
def isChartReq : Request → Bool
  | .addChart _ _ _ _ _ _ _ => true
  | _ => false

/-- A sheet-duplication call (the way a template sheet is used). -/
def isCopyToCall : RemoteCall → Bool
  | .copyTo _ => true
  | _ => false

/-- A remote call that mutates the destination document. -/
def isMutationCall : RemoteCall → Bool
  | .batchUpdate _ => true
  | .copyTo _ => true
  | _ => false

/-! ### Supporting lemmas -/

theorem retryFrom_step_rl {α : Type} (isRL : ErrInfo → Bool) (base : ℕ)
    (calls : ℕ → CallResult α) (a : ℕ) (delays : List ℕ)
    (last : Option ErrInfo) (r : ℕ) (e : ErrInfo)
    (h1 : calls a = .err e) (h2 : isRL e = true) :
    retryFrom isRL base calls a delays last (r + 1) =
      retryFrom isRL base calls (a + 1) (delays ++ [base * 2 ^ a]) (some e)
        r := by
  rw [retryFrom, h1]
  simp [h2]

theorem retryFrom_step_raise {α : Type} (isRL : ErrInfo → Bool) (base : ℕ)
    (calls : ℕ → CallResult α) (a : ℕ) (delays : List ℕ)
    (last : Option ErrInfo) (r : ℕ) (e : ErrInfo)
    (h1 : calls a = .err e) (h2 : isRL e = false) :
    retryFrom isRL base calls a delays last (r + 1) = .raised e delays := by
  rw [retryFrom, h1]
  simp [h2]

theorem delays_shift (base a n : ℕ) :
    [base * 2 ^ a] ++
        List.map (fun i => base * 2 ^ (a + 1 + i)) (List.range n) =
      List.map (fun i => base * 2 ^ (a + i)) (List.range (n + 1)) := by
  rw [List.range_succ_eq_map, List.map_cons, List.map_map,
    List.singleton_append, Nat.add_zero]
  congr 1
  apply List.map_congr_left
  intro i _
  simp only [Function.comp]
  have h : a + 1 + i = a + i.succ := by omega
  rw [h]

theorem retryFrom_exhaust {α : Type} (isRL : ErrInfo → Bool) (base : ℕ)
    (calls : ℕ → CallResult α) (es : ℕ → ErrInfo) :
    ∀ (r a : ℕ) (delays : List ℕ) (last : Option ErrInfo),
      (∀ i, i < r → calls (a + i) = .err (es (a + i)) ∧
        isRL (es (a + i)) = true) →
      retryFrom isRL base calls a delays last r =
        .exhausted (if r = 0 then last else some (es (a + r - 1)))
          (delays ++ (List.range r).map fun i => base * 2 ^ (a + i)) := by
  intro r
  induction r with
  | zero => intro a delays last _; simp [retryFrom]
  | succ n ih =>
    intro a delays last h
    have h0 := h 0 (Nat.succ_pos n)
    simp only [Nat.add_zero] at h0
    have step : ∀ i, i < n → calls (a + 1 + i) = .err (es (a + 1 + i)) ∧
        isRL (es (a + 1 + i)) = true := by
      intro i hi
      have := h (i + 1) (by omega)
      have e : a + (i + 1) = a + 1 + i := by omega
      rw [e] at this
      exact this
    rw [retryFrom_step_rl isRL base calls a delays last n (es a) h0.1 h0.2]
    rw [ih (a + 1) (delays ++ [base * 2 ^ a]) (some (es a)) step]
    have hidx : (if n = 0 then some (es a) else some (es (a + 1 + n - 1))) =
        some (es (a + (n + 1) - 1)) := by
      rcases n with _ | m
      · simp
      · have : a + 1 + (m + 1) - 1 = a + (m + 1 + 1) - 1 := by omega
        simp [this]
    rw [hidx]
    congr 1
    rw [List.append_assoc]
    congr 1
    exact delays_shift base a n

theorem retryFrom_raise {α : Type} (isRL : ErrInfo → Bool) (base : ℕ)
    (calls : ℕ → CallResult α) (es : ℕ → ErrInfo) (e : ErrInfo) :
    ∀ (k r a : ℕ) (delays : List ℕ) (last : Option ErrInfo), k < r →
      (∀ i, i < k → calls (a + i) = .err (es (a + i)) ∧
        isRL (es (a + i)) = true) →
      calls (a + k) = .err e → isRL e = false →
      retryFrom isRL base calls a delays last r =
        .raised e (delays ++ (List.range k).map fun i => base * 2 ^ (a + i)) := by
  intro k
  induction k with
  | zero =>
    intro r a delays last hk _ hcall hbad
    rcases r with _ | r'
    · omega
    · simp only [Nat.add_zero] at hcall
      rw [retryFrom_step_raise isRL base calls a delays last r' e hcall hbad]
      simp
  | succ n ih =>
    intro r a delays last hk h hcall hbad
    rcases r with _ | r'
    · omega
    · have h0 := h 0 (Nat.succ_pos n)
      simp only [Nat.add_zero] at h0
      rw [retryFrom_step_rl isRL base calls a delays last r' (es a) h0.1 h0.2]
      have step : ∀ i, i < n → calls (a + 1 + i) = .err (es (a + 1 + i)) ∧
          isRL (es (a + 1 + i)) = true := by
        intro i hi
        have := h (i + 1) (by omega)
        have eidx : a + (i + 1) = a + 1 + i := by omega
        rw [eidx] at this
        exact this
      have hcall' : calls (a + 1 + n) = .err e := by
        have eidx : a + (n + 1) = a + 1 + n := by omega
        rw [eidx] at hcall
        exact hcall
      rw [ih r' (a + 1) (delays ++ [base * 2 ^ a]) (some (es a)) (by omega)
        step hcall' hbad]
      congr 1
      rw [List.append_assoc]
      congr 1
      exact delays_shift base a n

theorem upper_ne_dollar {c : Char} (h : isUpperAlpha c = true) :
    (c == '$') = false := by
  cases hc : c == '$'
  · rfl
  · have := eq_of_beq hc
    subst this
    exact absurd h (by decide)

theorem digit_ne_dollar {c : Char} (h : isAsciiDigit c = true) :
    (c == '$') = false := by
  cases hc : c == '$'
  · rfl
  · have := eq_of_beq hc
    subst this
    exact absurd h (by decide)

theorem upper_ne_colon {c : Char} (h : isUpperAlpha c = true) :
    (c == ':') = false := by
  cases hc : c == ':'
  · rfl
  · have := eq_of_beq hc
    subst this
    exact absurd h (by decide)

theorem digit_ne_colon {c : Char} (h : isAsciiDigit c = true) :
    (c == ':') = false := by
  cases hc : c == ':'
  · rfl
  · have := eq_of_beq hc
    subst this
    exact absurd h (by decide)

theorem upper_is_alpha {c : Char} (h : isUpperAlpha c = true) :
    isAsciiAlpha c = true := by
  simp [isAsciiAlpha, h]

theorem digit_not_alpha {c : Char} (h : isAsciiDigit c = true) :
    isAsciiAlpha c = false := by
  have h1 : 48 ≤ c.toNat ∧ c.toNat ≤ 57 := by
    simpa [isAsciiDigit] using h
  have h2 : (decide (65 ≤ c.toNat)) = false := by
    simp only [decide_eq_false_iff_not]
    omega
  have h3 : (decide (97 ≤ c.toNat)) = false := by
    simp only [decide_eq_false_iff_not]
    omega
  simp [isAsciiAlpha, isUpperAlpha, isLowerAlpha, h2, h3]

theorem upper_not_digit {c : Char} (h : isUpperAlpha c = true) :
    isAsciiDigit c = false := by
  have h1 : 65 ≤ c.toNat ∧ c.toNat ≤ 90 := by
    simpa [isUpperAlpha] using h
  have h2 : (decide (c.toNat ≤ 57)) = false := by
    simp only [decide_eq_false_iff_not]
    omega
  simp [isAsciiDigit, h2]

theorem charUpper_of_upper {c : Char} (h : isUpperAlpha c = true) :
    charUpper c = c := by
  have h1 : 65 ≤ c.toNat ∧ c.toNat ≤ 90 := by
    simpa [isUpperAlpha] using h
  rw [charUpper, if_neg]
  simp only [Bool.and_eq_true, decide_eq_true_eq, not_and]
  omega

theorem map_upper_id {L : List Char} (h : L.all isUpperAlpha = true) :
    L.map charUpper = L := by
  induction L with
  | nil => rfl
  | cons c t ih =>
    simp only [List.all_cons, Bool.and_eq_true] at h
    simp [charUpper_of_upper h.1, ih h.2]

theorem splitFirst_append (sep : Char) (l r : List Char)
    (h : containsChar sep l = false) :
    splitFirst sep (l ++ sep :: r) = some (l, r) := by
  induction l with
  | nil => simp [splitFirst]
  | cons c t ih =>
    simp only [containsChar, List.any_cons, Bool.or_eq_false_iff] at h
    rw [List.cons_append, splitFirst]
    rw [if_neg (ne_of_beq_false h.1)]
    rw [ih (by simp [containsChar, h.2])]

theorem splitFirst_none (sep : Char) (l : List Char)
    (h : containsChar sep l = false) : splitFirst sep l = none := by
  induction l with
  | nil => rfl
  | cons c t ih =>
    simp only [containsChar, List.any_cons, Bool.or_eq_false_iff] at h
    rw [splitFirst]
    rw [if_neg (ne_of_beq_false h.1)]
    rw [ih (by simp [containsChar, h.2])]

theorem containsChar_filter_false {c : Char} {p : Char → Bool}
    {l : List Char} (h : containsChar c l = false) :
    containsChar c (l.filter p) = false := by
  simp only [containsChar, List.any_eq_false] at h ⊢
  intro x hx
  exact h x (List.mem_of_mem_filter hx)

theorem column_index_valid {L : List Char} (h : L.all isUpperAlpha = true)
    (h1 : 1 ≤ L.length) (h2 : L.length ≤ 3) :
    column_index_from_string L = .ok (colIndexBase26 L) := by
  rw [column_index_from_string]
  rw [map_upper_id h]
  rw [if_pos]
  simp [h, h1, h2]

theorem pyIntOfDigits_valid {D : List Char} (h : D.all isAsciiDigit = true)
    (hne : D ≠ []) : pyIntOfDigits D = .ok (decValue D) := by
  rw [pyIntOfDigits, if_pos]
  simp [h, List.isEmpty_iff, hne]

theorem filter_token_alpha {L D : List Char} (hL : L.all isUpperAlpha = true)
    (hD : D.all isAsciiDigit = true) :
    (L ++ D).filter isAsciiAlpha = L := by
  rw [List.filter_append]
  rw [List.filter_eq_self.mpr, List.filter_eq_nil_iff.mpr, List.append_nil]
  · intro a ha
    simp [digit_not_alpha (List.all_eq_true.mp hD a ha)]
  · intro a ha
    exact upper_is_alpha (List.all_eq_true.mp hL a ha)

theorem filter_token_digit {L D : List Char} (hL : L.all isUpperAlpha = true)
    (hD : D.all isAsciiDigit = true) :
    (L ++ D).filter isAsciiDigit = D := by
  rw [List.filter_append]
  rw [List.filter_eq_nil_iff.mpr, List.filter_eq_self.mpr, List.nil_append]
  · intro a ha
    exact List.all_eq_true.mp hD a ha
  · intro a ha
    simp [upper_not_digit (List.all_eq_true.mp hL a ha)]

theorem filter_dollar_token {d1 L d2 D : List Char}
    (hd1 : d1 = [] ∨ d1 = ['$']) (hd2 : d2 = [] ∨ d2 = ['$'])
    (hL : L.all isUpperAlpha = true) (hD : D.all isAsciiDigit = true) :
    (d1 ++ L ++ d2 ++ D).filter (fun c => !(c == '$')) = L ++ D := by
  have hLkeep : L.filter (fun c => !(c == '$')) = L := by
    apply List.filter_eq_self.mpr
    intro a ha
    simp [upper_ne_dollar (List.all_eq_true.mp hL a ha)]
  have hDkeep : D.filter (fun c => !(c == '$')) = D := by
    apply List.filter_eq_self.mpr
    intro a ha
    simp [digit_ne_dollar (List.all_eq_true.mp hD a ha)]
  have hd1drop : d1.filter (fun c => !(c == '$')) = [] := by
    rcases hd1 with h | h <;> subst h <;> rfl
  have hd2drop : d2.filter (fun c => !(c == '$')) = [] := by
    rcases hd2 with h | h <;> subst h <;> rfl
  simp [List.filter_append, hLkeep, hDkeep, hd1drop, hd2drop]

theorem containsChar_token_colon {L D : List Char}
    (hL : L.all isUpperAlpha = true) (hD : D.all isAsciiDigit = true) :
    containsChar ':' (L ++ D) = false := by
  simp only [containsChar, List.any_eq_false]
  intro x hx
  rcases List.mem_append.mp hx with h | h
  · simpa using upper_ne_colon (List.all_eq_true.mp hL x h)
  · simpa using digit_ne_colon (List.all_eq_true.mp hD x h)

theorem parse_cell_tokens_valid {L D : List Char}
    (hL : L.all isUpperAlpha = true) (h1 : 1 ≤ L.length)
    (h2 : L.length ≤ 3) (hD : D.all isAsciiDigit = true) (hne : D ≠ []) :
    parse_cell_tokens (L ++ D) = .ok (colIndexBase26 L, decValue D) := by
  rw [parse_cell_tokens]
  rw [filter_token_alpha hL hD, filter_token_digit hL hD]
  rw [column_index_valid hL h1 h2, pyIntOfDigits_valid hD hne]
  rfl

theorem parse_cell_tokens_err {cell : List Char}
    (h : cell.filter isAsciiAlpha = [] ∨ cell.filter isAsciiDigit = []) :
    parse_cell_tokens cell = .error () := by
  rcases h with h | h
  · rw [parse_cell_tokens, h]
    rfl
  · rw [parse_cell_tokens, h]
    rcases hcol : column_index_from_string (cell.filter isAsciiAlpha) with e | v
    · rfl
    · rfl

/-! ### Claim C1 -/

/-- C1, counterexample: the claim asserts that column width `8.43` maps to
pixel size `65`, but `convert_dimension_size_to_pixels` computes
`round(8.43 * 7 + 5) = round(64.01) = 64`. -/
theorem C1_counterexample :
    convert_dimension_size_to_pixels (some (843 / 100)) false = some 64 ∧
      convert_dimension_size_to_pixels (some (843 / 100)) false ≠ some 65 := by
  constructor
  · norm_num [convert_dimension_size_to_pixels, pythonRound]
  · norm_num [convert_dimension_size_to_pixels, pythonRound]

/-- C1, amended: for every explicitly sized dimension, row height `h` points
maps to `round(h * 96 / 72)` pixels and column width `w` source units maps to
`round(w * 7 + 5)` pixels; in particular row height `15` maps to pixel size
`20` and column width `8.43` maps to pixel size `64`. -/
theorem C1_theorem :
    (∀ h w : ℚ,
      convert_dimension_size_to_pixels (some h) true =
        some (pythonRound (h * 96 / 72)) ∧
      convert_dimension_size_to_pixels (some w) false =
        some (pythonRound (w * 7 + 5))) ∧
    convert_dimension_size_to_pixels (some 15) true = some 20 ∧
    convert_dimension_size_to_pixels (some (843 / 100)) false = some 64 := by
  refine ⟨fun h w => ⟨rfl, rfl⟩, ?_, ?_⟩
  · norm_num [convert_dimension_size_to_pixels, pythonRound]
  · norm_num [convert_dimension_size_to_pixels, pythonRound]

/-! ### Claim C3 -/

/-- C3, counterexample: `"Sheet1!A"` has the sheet separator but its endpoint
has no digit characters; the claim says the parser yields the `None` failure,
but it raises an uncaught `ValueError` from `int("")`. -/
theorem C3_counterexample :
    containsChar '!' (strL "Sheet1!A") = true ∧
      parse_range_reference (strL "Sheet1!A") = .error () := by
  exact ⟨by decide, by decide⟩

/-- C3, amended: `parse_range_reference` returns the `None` failure when the
input is empty or has no `!` sheet separator; but when an endpoint has
malformed row/column tokens (no digit characters or no alphabetic
characters), it raises an uncaught error instead of returning the failure
(its callers catch the exception). -/
theorem C3_theorem :
    (∀ ref : List Char, containsChar '!' ref = false →
      parse_range_reference ref = .ok none) ∧
    (∀ sheet e : List Char, containsChar '!' sheet = false →
      containsChar ':' e = false →
      (e.filter isAsciiAlpha = [] ∨ e.filter isAsciiDigit = []) →
      parse_range_reference (sheet ++ '!' :: e) = .error ()) := by
  constructor
  · intro ref h
    rcases ref with _ | ⟨c, t⟩
    · rfl
    · rw [parse_range_reference]
      rw [if_neg (by simp)]
      rw [splitFirst_none '!' _ h]
  · intro sheet e hsheet hcolon hmal
    have hne : (sheet ++ '!' :: e).isEmpty = false := by
      simp [List.isEmpty_iff]
    have hsplit := splitFirst_append '!' sheet e hsheet
    have hcolon2 : containsChar ':'
        (e.filter (fun c => !(c == '$'))) = false :=
      containsChar_filter_false hcolon
    have hsplit2 := splitFirst_append ':' (e.filter (fun c => !(c == '$')))
      (e.filter (fun c => !(c == '$'))) hcolon2
    have hmal' : (e.filter (fun c => !(c == '$'))).filter isAsciiAlpha = [] ∨
        (e.filter (fun c => !(c == '$'))).filter isAsciiDigit = [] := by
      rcases hmal with h | h
      · left
        rw [List.filter_filter]
        apply List.filter_eq_nil_iff.mpr
        intro a ha
        have := List.filter_eq_nil_iff.mp h a ha
        simp only [Bool.and_eq_true, not_and]
        intro hq
        exact absurd hq this
      · right
        rw [List.filter_filter]
        apply List.filter_eq_nil_iff.mpr
        intro a ha
        have := List.filter_eq_nil_iff.mp h a ha
        simp only [Bool.and_eq_true, not_and]
        intro hq
        exact absurd hq this
    have herr := parse_cell_tokens_err hmal'
    rw [parse_range_reference]
    rw [if_neg (by simp [hne])]
    rw [hsplit]
    simp only [hcolon, Bool.false_eq_true, if_false, List.filter_append,
      List.filter_cons]
    simp only [show ((':' : Char) == '$') = false from rfl, Bool.not_false,
      if_true, hsplit2, herr]
    rfl

/-! ### Claim C7 -/

/-- C7: for well-formed references the parser returns the canonical 1-based
inclusive `RangeRef`: surrounding quotes stripped from the sheet name, `$`
markers ignored, a single cell doubled into both endpoints, and column
letters decoded base-26 with `A = 1`; in particular `"Sheet1!$B$2:$B$9"` and
the letters `A`, `Z`, `AA`. -/
theorem C7_theorem :
    (∀ sheet L1 D1 L2 D2 d1 d2 d3 d4 : List Char,
      containsChar '!' sheet = false →
      d1 = [] ∨ d1 = ['$'] → d2 = [] ∨ d2 = ['$'] →
      d3 = [] ∨ d3 = ['$'] → d4 = [] ∨ d4 = ['$'] →
      L1.all isUpperAlpha = true → 1 ≤ L1.length → L1.length ≤ 3 →
      D1.all isAsciiDigit = true → D1 ≠ [] →
      L2.all isUpperAlpha = true → 1 ≤ L2.length → L2.length ≤ 3 →
      D2.all isAsciiDigit = true → D2 ≠ [] →
      parse_range_reference (sheet ++ '!' ::
          ((d1 ++ L1 ++ d2 ++ D1) ++ ':' :: (d3 ++ L2 ++ d4 ++ D2))) =
        .ok (some ⟨stripChar quoteChar sheet, (decValue D1 : ℤ),
          (decValue D2 : ℤ), (colIndexBase26 L1 : ℤ),
          (colIndexBase26 L2 : ℤ)⟩)) ∧
    (∀ sheet L1 D1 d1 d2 : List Char,
      containsChar '!' sheet = false →
      d1 = [] ∨ d1 = ['$'] → d2 = [] ∨ d2 = ['$'] →
      L1.all isUpperAlpha = true → 1 ≤ L1.length → L1.length ≤ 3 →
      D1.all isAsciiDigit = true → D1 ≠ [] →
      parse_range_reference (sheet ++ '!' :: (d1 ++ L1 ++ d2 ++ D1)) =
        .ok (some ⟨stripChar quoteChar sheet, (decValue D1 : ℤ),
          (decValue D1 : ℤ), (colIndexBase26 L1 : ℤ),
          (colIndexBase26 L1 : ℤ)⟩)) ∧
    parse_range_reference (strL "Sheet1!$B$2:$B$9") =
      .ok (some ⟨strL "Sheet1", 2, 9, 2, 2⟩) ∧
    parse_range_reference (strL "'My Sheet'!A1") =
      .ok (some ⟨strL "My Sheet", 1, 1, 1, 1⟩) ∧
    column_index_from_string (strL "A") = .ok 1 ∧
    column_index_from_string (strL "Z") = .ok 26 ∧
    column_index_from_string (strL "AA") = .ok 27 := by
  refine ⟨?_, ?_, by decide, by decide, by decide, by decide, by decide⟩
  · intro sheet L1 D1 L2 D2 d1 d2 d3 d4 hsheet hd1 hd2 hd3 hd4
      hL1 hL1a hL1b hD1 hD1n hL2 hL2a hL2b hD2 hD2n
    have hsplit := splitFirst_append '!' sheet
      ((d1 ++ L1 ++ d2 ++ D1) ++ ':' :: (d3 ++ L2 ++ d4 ++ D2)) hsheet
    have hcontains : containsChar ':'
        ((d1 ++ L1 ++ d2 ++ D1) ++ ':' :: (d3 ++ L2 ++ d4 ++ D2)) = true := by
      simp [containsChar, List.any_append]
    have hfe1 := filter_dollar_token hd1 hd2 hL1 hD1
    have hfe2 := filter_dollar_token hd3 hd4 hL2 hD2
    have hsplit2 := splitFirst_append ':' (L1 ++ D1) (L2 ++ D2)
      (containsChar_token_colon hL1 hD1)
    have hp1 := parse_cell_tokens_valid hL1 hL1a hL1b hD1 hD1n
    have hp2 := parse_cell_tokens_valid hL2 hL2a hL2b hD2 hD2n
    have hfilterall : ((d1 ++ L1 ++ d2 ++ D1) ++
        ':' :: (d3 ++ L2 ++ d4 ++ D2)).filter (fun c => !(c == '$')) =
        (L1 ++ D1) ++ ':' :: (L2 ++ D2) := by
      rw [List.filter_append, List.filter_cons]
      simp only [show ((':' : Char) == '$') = false from rfl, Bool.not_false,
        if_true, hfe1, hfe2]
    rw [parse_range_reference]
    rw [if_neg (by simp)]
    rw [hsplit]
    simp only [hcontains, if_true, hfilterall, hsplit2, hp1, hp2]
    rfl
  · intro sheet L1 D1 d1 d2 hsheet hd1 hd2 hL1 hL1a hL1b hD1 hD1n
    have hsplit := splitFirst_append '!' sheet (d1 ++ L1 ++ d2 ++ D1) hsheet
    have hnocolon : containsChar ':' (d1 ++ L1 ++ d2 ++ D1) = false := by
      have h1 : ∀ x ∈ d1, (x == ':') = false := by
        rcases hd1 with h | h <;> subst h
        · intro x hx
          cases hx
        · intro x hx
          have := List.mem_singleton.mp hx
          subst this
          rfl
      have h2 : ∀ x ∈ d2, (x == ':') = false := by
        rcases hd2 with h | h <;> subst h
        · intro x hx
          cases hx
        · intro x hx
          have := List.mem_singleton.mp hx
          subst this
          rfl
      simp only [containsChar, List.any_eq_false]
      intro x hx
      simp only [List.append_assoc, List.mem_append] at hx
      rcases hx with hx | hx | hx | hx
      · simpa using h1 x hx
      · simpa using upper_ne_colon (List.all_eq_true.mp hL1 x hx)
      · simpa using h2 x hx
      · simpa using digit_ne_colon (List.all_eq_true.mp hD1 x hx)
    have hfe1 := filter_dollar_token hd1 hd2 hL1 hD1
    have hsplit2 := splitFirst_append ':' (L1 ++ D1) (L1 ++ D1)
      (containsChar_token_colon hL1 hD1)
    have hp1 := parse_cell_tokens_valid hL1 hL1a hL1b hD1 hD1n
    have hfilterall : ((d1 ++ L1 ++ d2 ++ D1) ++
        ':' :: (d1 ++ L1 ++ d2 ++ D1)).filter (fun c => !(c == '$')) =
        (L1 ++ D1) ++ ':' :: (L1 ++ D1) := by
      rw [List.filter_append, List.filter_cons]
      simp only [show ((':' : Char) == '$') = false from rfl, Bool.not_false,
        if_true, hfe1]
    rw [parse_range_reference]
    rw [if_neg (by simp)]
    rw [hsplit]
    simp only [hnocolon, Bool.false_eq_true, if_false, hfilterall, hsplit2,
      hp1]
    rfl

/-- C7, witness: the general range and single-cell parts of the theorem
applied at concrete well-formed references. -/
theorem C7_witness :
    parse_range_reference (strL "Data" ++ '!' ::
        ((['$'] ++ strL "AA" ++ ['$'] ++ strL "10") ++ ':' ::
          ([] ++ strL "B" ++ [] ++ strL "12"))) =
      .ok (some ⟨stripChar quoteChar (strL "Data"),
        (decValue (strL "10") : ℤ), (decValue (strL "12") : ℤ),
        (colIndexBase26 (strL "AA") : ℤ), (colIndexBase26 (strL "B") : ℤ)⟩) ∧
    parse_range_reference (strL "'Tab'" ++ '!' ::
        ([] ++ strL "C" ++ ['$'] ++ strL "7")) =
      .ok (some ⟨stripChar quoteChar (strL "'Tab'"),
        (decValue (strL "7") : ℤ), (decValue (strL "7") : ℤ),
        (colIndexBase26 (strL "C") : ℤ), (colIndexBase26 (strL "C") : ℤ)⟩) := by
  constructor
  · exact C7_theorem.1 (strL "Data") (strL "AA") (strL "10") (strL "B")
      (strL "12") ['$'] ['$'] [] [] (by decide) (by decide) (by decide)
      (by decide) (by decide) (by decide) (by decide) (by decide) (by decide)
      (by decide) (by decide) (by decide) (by decide) (by decide) (by decide)
  · exact C7_theorem.2.1 (strL "'Tab'") (strL "C") (strL "7") [] ['$']
      (by decide) (by decide) (by decide) (by decide) (by decide) (by decide)
      (by decide) (by decide)

/-- C3, witness for the amended claim: a reference with no separator parses
to the `None` failure, and a malformed endpoint raises. -/
theorem C3_witness :
    parse_range_reference (strL "A1:B2") = .ok none ∧
      parse_range_reference (strL "Sheet1" ++ '!' :: strL "123") =
        .error () := by
  constructor
  · exact C3_theorem.1 (strL "A1:B2") (by decide)
  · exact C3_theorem.2 (strL "Sheet1") (strL "123") (by decide) (by decide)
      (Or.inl (by decide))

/-! ### Claim C2 -/

/-- C2, counterexample: a 403 failure carrying a quota marker is classified
as rate-limiting by the claim, yet the Sheets retry wrapper propagates it
immediately, performing no retry and no backoff sleep. -/
theorem C2_counterexample :
    spec_is_rate_limit ⟨some 403, strL "quota exceeded"⟩ = true ∧
      retry_gspread 5 5
        (fun _ => (CallResult.err ⟨some 403, strL "quota exceeded"⟩ :
          CallResult ℕ)) =
        .raised ⟨some 403, strL "quota exceeded"⟩ [] := by
  exact ⟨by decide, rfl⟩

/-- C2, amended: the Drive wrapper retries exactly the failures whose status
is 429 or 403 and whose message carries a quota/rate-limit marker or the
substring `429`, and the Sheets wrapper retries exactly the failures whose
status is 429 or whose message contains `429`; in both, retried attempts
sleep `base * 2 ^ attempt` (delay doubling from the configured base) for at
most the configured number of attempts, the last rate-limit error being
re-raised on exhaustion, and any failure not matching the wrapper's
classifier propagates immediately with no further attempt and no sleep. -/
theorem C2_theorem :
    (∀ (maxR base : ℕ) (calls : ℕ → CallResult ℕ) (es : ℕ → ErrInfo)
        (k : ℕ) (e : ErrInfo), k < maxR →
      (∀ i, i < k → calls i = .err (es i) ∧
        drive_is_rate_limit (es i) = true) →
      calls k = .err e → drive_is_rate_limit e = false →
      retry_drive maxR base calls =
        .raised e ((List.range k).map fun i => base * 2 ^ i)) ∧
    (∀ (maxR base : ℕ) (calls : ℕ → CallResult ℕ) (es : ℕ → ErrInfo),
        0 < maxR →
      (∀ i, i < maxR → calls i = .err (es i) ∧
        drive_is_rate_limit (es i) = true) →
      retry_drive maxR base calls =
        .exhausted (some (es (maxR - 1)))
          ((List.range maxR).map fun i => base * 2 ^ i)) ∧
    (∀ (maxR base : ℕ) (calls : ℕ → CallResult ℕ) (es : ℕ → ErrInfo)
        (k : ℕ) (e : ErrInfo), k < maxR →
      (∀ i, i < k → calls i = .err (es i) ∧
        gspread_is_rate_limit (es i) = true) →
      calls k = .err e → gspread_is_rate_limit e = false →
      retry_gspread maxR base calls =
        .raised e ((List.range k).map fun i => base * 2 ^ i)) ∧
    (∀ (maxR base : ℕ) (calls : ℕ → CallResult ℕ) (es : ℕ → ErrInfo),
        0 < maxR →
      (∀ i, i < maxR → calls i = .err (es i) ∧
        gspread_is_rate_limit (es i) = true) →
      retry_gspread maxR base calls =
        .exhausted (some (es (maxR - 1)))
          ((List.range maxR).map fun i => base * 2 ^ i)) := by
  refine ⟨?_, ?_, ?_, ?_⟩
  · intro maxR base calls es k e hk h hcall hbad
    have := retryFrom_raise drive_is_rate_limit base calls es e k maxR 0 []
      none hk (by simpa using h) (by simpa using hcall) hbad
    simpa [retry_drive, retry_loop] using this
  · intro maxR base calls es hpos h
    have := retryFrom_exhaust drive_is_rate_limit base calls es maxR 0 []
      none (by simpa using h)
    rw [if_neg (by omega)] at this
    simpa [retry_drive, retry_loop] using this
  · intro maxR base calls es k e hk h hcall hbad
    have := retryFrom_raise gspread_is_rate_limit base calls es e k maxR 0 []
      none hk (by simpa using h) (by simpa using hcall) hbad
    simpa [retry_gspread, retry_loop] using this
  · intro maxR base calls es hpos h
    have := retryFrom_exhaust gspread_is_rate_limit base calls es maxR 0 []
      none (by simpa using h)
    rw [if_neg (by omega)] at this
    simpa [retry_gspread, retry_loop] using this

/-- C2, witness: concrete two-attempt runs of both wrappers, exercising the
immediate-propagation and the exhaustion branches of the amended claim. -/
theorem C2_witness :
    retry_drive 2 5
      (fun i => (if i = 0 then .err ⟨some 429, strL "quota hit"⟩
        else .err ⟨some 500, strL "boom"⟩ : CallResult ℕ)) =
      .raised ⟨some 500, strL "boom"⟩ [5] ∧
    retry_drive 2 5
      (fun _ => (.err ⟨some 429, strL "quota hit"⟩ : CallResult ℕ)) =
      .exhausted (some ⟨some 429, strL "quota hit"⟩) [5, 10] ∧
    retry_gspread 2 5
      (fun i => (if i = 0 then .err ⟨some 429, strL "x"⟩
        else .err ⟨some 403, strL "quota"⟩ : CallResult ℕ)) =
      .raised ⟨some 403, strL "quota"⟩ [5] ∧
    retry_gspread 2 5
      (fun _ => (.err ⟨some 429, strL "x"⟩ : CallResult ℕ)) =
      .exhausted (some ⟨some 429, strL "x"⟩) [5, 10] := by
  refine ⟨?_, ?_, ?_, ?_⟩
  · have := C2_theorem.1 2 5
      (fun i => (if i = 0 then .err ⟨some 429, strL "quota hit"⟩
        else .err ⟨some 500, strL "boom"⟩ : CallResult ℕ))
      (fun _ => ⟨some 429, strL "quota hit"⟩) 1 ⟨some 500, strL "boom"⟩
      (by omega)
      (by intro i hi
          have : i = 0 := by omega
          subst this
          exact ⟨rfl, by decide⟩)
      rfl (by decide)
    simpa using this
  · have := C2_theorem.2.1 2 5
      (fun _ => (.err ⟨some 429, strL "quota hit"⟩ : CallResult ℕ))
      (fun _ => ⟨some 429, strL "quota hit"⟩) (by omega)
      (by intro i hi
          refine ⟨rfl, ?_⟩
          show drive_is_rate_limit ⟨some 429, strL "quota hit"⟩ = true
          decide)
    simpa using this
  · have := C2_theorem.2.2.1 2 5
      (fun i => (if i = 0 then .err ⟨some 429, strL "x"⟩
        else .err ⟨some 403, strL "quota"⟩ : CallResult ℕ))
      (fun _ => ⟨some 429, strL "x"⟩) 1 ⟨some 403, strL "quota"⟩
      (by omega)
      (by intro i hi
          have : i = 0 := by omega
          subst this
          exact ⟨rfl, by decide⟩)
      rfl (by decide)
    simpa using this
  · have := C2_theorem.2.2.2 2 5
      (fun _ => (.err ⟨some 429, strL "x"⟩ : CallResult ℕ))
      (fun _ => ⟨some 429, strL "x"⟩) (by omega)
      (by intro i hi
          refine ⟨rfl, ?_⟩
          show gspread_is_rate_limit ⟨some 429, strL "x"⟩ = true
          decide)
    simpa using this

/-! ### Claim C4 -/

theorem exists_six {l : List Char} (h : l.length = 6) :
    ∃ a b c d e f, l = [a, b, c, d, e, f] := by
  rcases l with _ | ⟨a, _ | ⟨b, _ | ⟨c, _ | ⟨d, _ | ⟨e, _ | ⟨f, _ | ⟨g, r⟩⟩⟩⟩⟩⟩⟩ <;>
    simp only [List.length_nil, List.length_cons] at h
  all_goals first
    | omega
    | exact ⟨a, b, c, d, e, f, rfl⟩

/-- C4, counterexample: the claim says `rgb_to_color` never signals an
error, but a length-6 remainder with non-hexadecimal characters raises an
uncaught `ValueError` from `int(_, 16)`. -/
theorem C4_counterexample :
    rgb_to_color (some (strL "GGGGGG")) = .error () := by
  decide

/-- C4, amended: after stripping `0x`/`#` and dropping the two alpha
characters of a length-8 value, any input whose remaining length is not
exactly 6 yields absent (`None`) rather than an error, and a length-6
remainder of hexadecimal digits yields a parsed color; but a length-6
remainder containing non-hexadecimal characters raises an uncaught error;
in particular `translateColor("00")` is absent and
`translateColor("FFFF0000")` is pure red. -/
theorem C4_theorem :
    (∀ s : List Char, (rgbNormalize s).length ≠ 6 →
      rgb_to_color (some s) = .ok none) ∧
    (∀ s : List Char, (rgbNormalize s).length = 6 →
      (∀ c ∈ rgbNormalize s, isHexDigitChar c = true) →
      ∃ col, rgb_to_color (some s) = .ok (some col)) ∧
    rgb_to_color (some (strL "00")) = .ok none ∧
    rgb_to_color (some (strL "FFFF0000")) = .ok (some ⟨1, 0, 0⟩) ∧
    rgb_to_color none = .ok none := by
  have h1 : rgb_to_color (some (strL "FFFF0000")) =
      .ok (some ⟨((255 : ℤ) : ℚ) / 255, ((0 : ℤ) : ℚ) / 255,
        ((0 : ℤ) : ℚ) / 255⟩) := rfl
  have h2 : ((255 : ℤ) : ℚ) / 255 = 1 := by norm_num
  have h3 : ((0 : ℤ) : ℚ) / 255 = 0 := by norm_num
  refine ⟨?_, ?_, by decide, by rw [h1, h2, h3], rfl⟩
  · intro s hlen
    simp only [rgb_to_color]
    cases hse : s.isEmpty
    · rw [if_neg (by simp [hse]), if_neg hlen]
    · rw [if_pos (by simp [hse])]
  · intro s hlen hhex
    have hsne : s.isEmpty = false := by
      cases s with
      | nil => exact absurd hlen (by decide)
      | cons a t => rfl
    obtain ⟨a, b, c, d, e, f, hs6⟩ := exists_six hlen
    have ha : isHexDigitChar a = true := hhex a (by rw [hs6]; simp)
    have hb : isHexDigitChar b = true := hhex b (by rw [hs6]; simp)
    have hc : isHexDigitChar c = true := hhex c (by rw [hs6]; simp)
    have hd : isHexDigitChar d = true := hhex d (by rw [hs6]; simp)
    have he : isHexDigitChar e = true := hhex e (by rw [hs6]; simp)
    have hf : isHexDigitChar f = true := hhex f (by rw [hs6]; simp)
    simp only [rgb_to_color, hsne, Bool.false_eq_true, if_false, hs6]
    rw [if_pos (by simp)]
    simp only [List.take_succ_cons, List.take_zero, List.drop_succ_cons,
      List.drop_zero]
    obtain ⟨v1, h1⟩ : ∃ v, pyIntHex2 a b = .ok v :=
      ⟨_, by rw [pyIntHex2, if_pos (by simp [ha, hb])]⟩
    obtain ⟨v2, h2⟩ : ∃ v, pyIntHex2 c d = .ok v :=
      ⟨_, by rw [pyIntHex2, if_pos (by simp [hc, hd])]⟩
    obtain ⟨v3, h3⟩ : ∃ v, pyIntHex2 e f = .ok v :=
      ⟨_, by rw [pyIntHex2, if_pos (by simp [he, hf])]⟩
    simp only [h1, h2, h3]
    exact ⟨_, rfl⟩

/-- C4, witness: the amended claim's general parts applied at a length-5
input (absent) and at a six-hex-digit input (parsed color). -/
theorem C4_witness :
    rgb_to_color (some (strL "12345")) = .ok none ∧
      ∃ col, rgb_to_color (some (strL "A1B2C3")) = .ok (some col) := by
  constructor
  · exact C4_theorem.1 (strL "12345") (by decide)
  · exact C4_theorem.2.1 (strL "A1B2C3") (by decide) (by decide)

/-! ### Claim C9 -/

theorem except_bind_ok {α β : Type} {x : Except Unit α}
    {f : α → Except Unit β} {b : β} (h : (x >>= f) = .ok b) :
    ∃ a, x = .ok a ∧ f a = .ok b := by
  cases x with
  | error e =>
    rw [show ((Except.error e : Except Unit α) >>= f) =
      (Except.error e : Except Unit β) from rfl] at h
    simp at h
  | ok a =>
    rw [show ((Except.ok a : Except Unit α) >>= f) = f a from rfl] at h
    exact ⟨a, rfl, h⟩

theorem normalize_leads (f : List Char) :
    leadsWith (strL "=") (normalize_formula f) = true := by
  rw [normalize_formula]
  cases hl : leadsWith (strL "=") f
  · simp only [Bool.false_eq_true, if_false]
    rfl
  · simp [hl]

theorem translate_cf_rule_cases (dxfs : List Dxf) (gr : GridRange)
    (rule : CFRule) (a : List Request)
    (h : translate_cf_rule dxfs gr rule = .ok a) :
    (cf_rule_qualifies rule = false ∧ a = []) ∨
    (cf_rule_qualifies rule = true ∧ ∃ f0 rest bg,
      rule.formula = f0 :: rest ∧ cf_fill_color dxfs rule = .ok bg ∧
      a = [.addConditionalFormatRule gr (normalize_formula f0) bg 0]) := by
  rcases hf : rule.formula with _ | ⟨f0, rest⟩
  · left
    rw [translate_cf_rule, hf] at h
    refine ⟨by simp [cf_rule_qualifies, hf], ?_⟩
    simpa using h.symm
  · rw [translate_cf_rule, hf] at h
    cases ht : (rule.type == strL "expression")
    · left
      rw [ht] at h
      simp only [Bool.false_eq_true, if_false] at h
      refine ⟨by simp [cf_rule_qualifies, hf, ht], ?_⟩
      simpa using h.symm
    · right
      rw [ht] at h
      simp only [if_true] at h
      obtain ⟨bg, hbg, hres⟩ := except_bind_ok h
      refine ⟨by simp [cf_rule_qualifies, hf, ht], f0, rest, bg, rfl, hbg, ?_⟩
      simpa using hres.symm

theorem translate_cf_rules_spec (dxfs : List Dxf) (gr : GridRange) :
    ∀ (rules : List CFRule) (l : List Request),
      translate_cf_rules dxfs gr rules = .ok l →
      l.length = (rules.filter cf_rule_qualifies).length ∧
      (∀ r ∈ l, ∃ g f bg, r = .addConditionalFormatRule g f bg 0 ∧
        leadsWith (strL "=") f = true) ∧
      (∀ rule ∈ rules, ∃ a, translate_cf_rule dxfs gr rule = .ok a) := by
  intro rules
  induction rules with
  | nil =>
    intro l h
    rw [translate_cf_rules] at h
    have hl : l = [] := by simpa using h.symm
    subst hl
    refine ⟨rfl, by simp, by simp⟩
  | cons r rs ih =>
    intro l h
    rw [translate_cf_rules] at h
    obtain ⟨a, ha, h2⟩ := except_bind_ok h
    obtain ⟨b, hb, h3⟩ := except_bind_ok h2
    have hl : l = a ++ b := by simpa using h3.symm
    subst hl
    obtain ⟨ihlen, ihshape, ihok⟩ := ih b hb
    rcases translate_cf_rule_cases dxfs gr r a ha with ⟨hq, hae⟩ |
        ⟨hq, f0, rest, bg, hf, hbg, hae⟩
    · subst hae
      refine ⟨?_, ?_, ?_⟩
      · simpa [List.filter_cons, hq] using ihlen
      · simpa using ihshape
      · intro rule hrule
        rcases List.mem_cons.mp hrule with h | h
        · subst h
          exact ⟨[], ha⟩
        · exact ihok rule h
    · subst hae
      refine ⟨?_, ?_, ?_⟩
      · simp only [List.length_append, ihlen, List.filter_cons, hq,
          if_true, List.length_cons, List.length_singleton, List.length_nil]
        omega
      · intro req hreq
        rcases List.mem_append.mp hreq with h | h
        · have := List.mem_singleton.mp h
          subst this
          exact ⟨gr, normalize_formula f0, bg, rfl, normalize_leads f0⟩
        · exact ihshape req h
      · intro rule hrule
        rcases List.mem_cons.mp hrule with h | h
        · subst h
          exact ⟨_, ha⟩
        · exact ihok rule h

theorem build_cf_blocks_spec (sid : ℕ) (dxfs : List Dxf) :
    ∀ (blocks : List CFBlock) (l : List Request),
      build_cf_blocks sid dxfs blocks = .ok l →
      l.length = (blocks.map fun b =>
        (b.rules.filter cf_rule_qualifies).length).sum ∧
      (∀ r ∈ l, ∃ g f bg, r = .addConditionalFormatRule g f bg 0 ∧
        leadsWith (strL "=") f = true) ∧
      (∀ b ∈ blocks, ∃ lb,
        translate_cf_rules dxfs (cf_grid_range sid b.bounds) b.rules =
          .ok lb) := by
  intro blocks
  induction blocks with
  | nil =>
    intro l h
    rw [build_cf_blocks] at h
    have hl : l = [] := by simpa using h.symm
    subst hl
    refine ⟨rfl, by simp, by simp⟩
  | cons b bs ih =>
    intro l h
    rw [build_cf_blocks] at h
    obtain ⟨a, ha, h2⟩ := except_bind_ok h
    obtain ⟨c, hc, h3⟩ := except_bind_ok h2
    have hl : l = a ++ c := by simpa using h3.symm
    subst hl
    obtain ⟨ihlen, ihshape, ihok⟩ := ih c hc
    obtain ⟨alen, ashape, _⟩ :=
      translate_cf_rules_spec dxfs (cf_grid_range sid b.bounds) b.rules a ha
    refine ⟨?_, ?_, ?_⟩
    · simp only [List.length_append, List.map_cons, List.sum_cons, alen,
        ihlen]
    · intro req hreq
      rcases List.mem_append.mp hreq with h | h
      · exact ashape req h
      · exact ihshape req h
    · intro blk hblk
      rcases List.mem_cons.mp hblk with h | h
      · subst h
        exact ⟨a, ha⟩
      · exact ihok blk h

/-- C9, counterexample: a worksheet with a single custom-formula
(`expression`) rule whose formula list is empty produces zero translated
operations, although the claim says exactly the custom-formula rules are
translated; and a qualifying rule whose `dxfId` is out of range of the
differential-style list is not translated either — `dxfs[rule.dxfId]`
raises an uncaught `IndexError`. -/
theorem C9_counterexample :
    ((⟨strL "expression", [], none⟩ : CFRule).type = strL "expression" ∧
      build_conditional_format_requests
        { maxRow := 1, maxCol := 1, cellData := fun _ _ => ⟨none, none⟩,
          columnDimensions := [], rowDimensions := [], mergedRanges := [],
          cfBlocks := [⟨⟨1, 1, 1, 1⟩, [⟨strL "expression", [], none⟩]⟩],
          dxfs := [], charts := [] } 5 = .ok []) ∧
    (cf_rule_qualifies ⟨strL "expression", [strL "A1>0"], some 3⟩ = true ∧
      build_conditional_format_requests
        { maxRow := 1, maxCol := 1, cellData := fun _ _ => ⟨none, none⟩,
          columnDimensions := [], rowDimensions := [], mergedRanges := [],
          cfBlocks := [⟨⟨1, 1, 1, 1⟩,
            [⟨strL "expression", [strL "A1>0"], some 3⟩]⟩],
          dxfs := [], charts := [] } 5 = .error ()) := by
  exact ⟨⟨rfl, rfl⟩, ⟨rfl, rfl⟩⟩

/-- C9, amended: in every non-raising run, exactly the rules whose type is
a custom formula and whose formula list is nonempty are translated (all
other rules are skipped, silently); each translated rule's formula is
normalized to start with `=`, its fill color is resolved via the color
translator, and each emitted boolean-rule operation is inserted at priority
index 0.  A qualifying rule whose `dxfId` is out of range raises an
uncaught `IndexError` instead (see the counterexample), so such runs
produce the error result and fall outside this characterization. -/
theorem C9_theorem (ws : Worksheet) (sid : ℕ) (ops : List Request)
    (h : build_conditional_format_requests ws sid = .ok ops) :
    ops.length = (ws.cfBlocks.map fun b =>
      (b.rules.filter cf_rule_qualifies).length).sum ∧
    (∀ r ∈ ops, ∃ g f bg, r = .addConditionalFormatRule g f bg 0 ∧
      leadsWith (strL "=") f = true) ∧
    (∀ b ∈ ws.cfBlocks, ∀ rule ∈ b.rules,
      (cf_rule_qualifies rule = false →
        translate_cf_rule ws.dxfs (cf_grid_range sid b.bounds) rule =
          .ok []) ∧
      (cf_rule_qualifies rule = true →
        ∃ f0 rest bg, rule.formula = f0 :: rest ∧
          cf_fill_color ws.dxfs rule = .ok bg ∧
          translate_cf_rule ws.dxfs (cf_grid_range sid b.bounds) rule =
            .ok [.addConditionalFormatRule (cf_grid_range sid b.bounds)
              (normalize_formula f0) bg 0])) := by
  obtain ⟨hlen, hshape, hok⟩ :=
    build_cf_blocks_spec sid ws.dxfs ws.cfBlocks ops h
  refine ⟨hlen, hshape, ?_⟩
  intro b hb rule hrule
  obtain ⟨lb, hlb⟩ := hok b hb
  obtain ⟨_, _, hruleok⟩ :=
    translate_cf_rules_spec ws.dxfs (cf_grid_range sid b.bounds) b.rules lb
      hlb
  obtain ⟨a, ha⟩ := hruleok rule hrule
  rcases translate_cf_rule_cases ws.dxfs (cf_grid_range sid b.bounds) rule a
      ha with ⟨hq, hae⟩ | ⟨hq, f0, rest, bg, hf, hbg, hae⟩
  · subst hae
    constructor
    · intro _
      exact ha
    · intro hq2
      rw [hq] at hq2
      cases hq2
  · subst hae
    constructor
    · intro hq2
      rw [hq] at hq2
      cases hq2
    · intro _
      exact ⟨f0, rest, bg, hf, hbg, ha⟩

/-- C9, witness: the amended claim applied to a worksheet with one
qualifying `expression` rule and one non-formula rule: exactly one operation
is emitted. -/
theorem C9_witness :
    ([Request.addConditionalFormatRule ⟨5, 0, 3, 0, 2⟩ (strL "=A1>0")
        none 0].length : ℕ) =
      ((([⟨⟨1, 1, 2, 3⟩, [⟨strL "expression", [strL "A1>0"], none⟩,
          ⟨strL "cellIs", [strL "5"], none⟩]⟩] : List CFBlock)).map fun b =>
        (b.rules.filter cf_rule_qualifies).length).sum := by
  exact (C9_theorem
    { maxRow := 1, maxCol := 1, cellData := fun _ _ => ⟨none, none⟩,
      columnDimensions := [], rowDimensions := [], mergedRanges := [],
      cfBlocks := [⟨⟨1, 1, 2, 3⟩, [⟨strL "expression", [strL "A1>0"], none⟩,
        ⟨strL "cellIs", [strL "5"], none⟩]⟩],
      dxfs := [], charts := [] } 5
    [Request.addConditionalFormatRule ⟨5, 0, 3, 0, 2⟩ (strL "=A1>0") none 0]
    rfl).1

/-! ### Claim C8 -/

/-- C8, counterexample: a single series whose value range starts at row 5
and whose title cell sits at row 2 — not row 4 — still produces
`headerCount = 1`, because the title row equals the category range's start
row minus one and the domain-widening branch also sets the shared counter;
the claim says `headerCount` is 0 whenever the title cell is not one row
above the value range. -/
theorem C8_counterexample :
    get_series_value_range ⟨some (strL "S!B5:B9"), some (strL "S!A3:A9"),
        none, some (strL "S!A2")⟩ = some ⟨strL "S", 5, 9, 2, 2⟩ ∧
    get_series_title_cell ⟨some (strL "S!B5:B9"), some (strL "S!A3:A9"),
        none, some (strL "S!A2")⟩ = some ⟨strL "S", 2, 2, 1, 1⟩ ∧
    ((2 : ℤ) ≠ 5 - 1) ∧
    processSeries [⟨strL "S", 7, 0, 0⟩] ⟨none, [], 0⟩
        ⟨some (strL "S!B5:B9"), some (strL "S!A3:A9"), none,
          some (strL "S!A2")⟩ =
      ⟨some ⟨7, 1, 9, 0, 1⟩, [⟨7, 4, 9, 1, 2⟩], 1⟩ := by
  refine ⟨by decide, by decide, by decide, by decide⟩

/-- C8, amended: for a series with resolvable value and category ranges and
a resolvable value sheet, a title cell exactly one row above the value
range widens that series' start row to the title row and sets the shared
`headerCount` to 1; a series whose title cell is absent or at any other row
leaves its own start row unchanged and leaves `headerCount` as it was
(which may already be 1 from another series); and the first
domain-establishing series additionally sets `headerCount` to 1 and widens
the domain when its title row equals the category range's start row minus
one, even when its value start row is unchanged.  All cases are settled:
with the domain already established (title at value-start minus one,
absent, or elsewhere), and for the domain-establishing series every
combination of the title sitting at value-start minus one, at category
start minus one, at both, at neither, or absent. -/
theorem C8_theorem (sheets : List SheetInfo) (acc : ChartAcc) (s : Series)
    (valR catR : RangeRef) (vid : ℕ)
    (hv : get_series_value_range s = some valR)
    (hc : get_series_category_range s = some catR)
    (hvid : get_sheet_id_by_title sheets valR.sheet = some vid) :
    (∀ d, acc.domain = some d →
      (∀ t, get_series_title_cell s = some t →
        t.rowStart = valR.rowStart - 1 →
        processSeries sheets acc s =
          ⟨some d, acc.ranges ++ [build_grid_range vid (valR.rowStart - 1)
            valR.rowEnd valR.colStart valR.colEnd], 1⟩) ∧
      (get_series_title_cell s = none →
        processSeries sheets acc s =
          ⟨some d, acc.ranges ++ [build_grid_range vid valR.rowStart
            valR.rowEnd valR.colStart valR.colEnd], acc.header⟩) ∧
      (∀ t, get_series_title_cell s = some t →
        t.rowStart ≠ valR.rowStart - 1 →
        processSeries sheets acc s =
          ⟨some d, acc.ranges ++ [build_grid_range vid valR.rowStart
            valR.rowEnd valR.colStart valR.colEnd], acc.header⟩)) ∧
    (acc.domain = none →
      ∀ cid, get_sheet_id_by_title sheets catR.sheet = some cid →
      ∀ t, get_series_title_cell s = some t →
        t.rowStart ≠ valR.rowStart - 1 → t.rowStart = catR.rowStart - 1 →
        processSeries sheets acc s =
          ⟨some (build_grid_range cid (catR.rowStart - 1) catR.rowEnd
              catR.colStart catR.colEnd),
            acc.ranges ++ [build_grid_range vid valR.rowStart valR.rowEnd
              valR.colStart valR.colEnd], 1⟩) ∧
    (acc.domain = none →
      ∀ cid, get_sheet_id_by_title sheets catR.sheet = some cid →
      (∀ t, get_series_title_cell s = some t →
        t.rowStart = valR.rowStart - 1 → t.rowStart = catR.rowStart - 1 →
        processSeries sheets acc s =
          ⟨some (build_grid_range cid (catR.rowStart - 1) catR.rowEnd
              catR.colStart catR.colEnd),
            acc.ranges ++ [build_grid_range vid (valR.rowStart - 1)
              valR.rowEnd valR.colStart valR.colEnd], 1⟩) ∧
      (∀ t, get_series_title_cell s = some t →
        t.rowStart = valR.rowStart - 1 → t.rowStart ≠ catR.rowStart - 1 →
        processSeries sheets acc s =
          ⟨some (build_grid_range cid catR.rowStart catR.rowEnd
              catR.colStart catR.colEnd),
            acc.ranges ++ [build_grid_range vid (valR.rowStart - 1)
              valR.rowEnd valR.colStart valR.colEnd], 1⟩) ∧
      (get_series_title_cell s = none →
        processSeries sheets acc s =
          ⟨some (build_grid_range cid catR.rowStart catR.rowEnd
              catR.colStart catR.colEnd),
            acc.ranges ++ [build_grid_range vid valR.rowStart valR.rowEnd
              valR.colStart valR.colEnd], acc.header⟩) ∧
      (∀ t, get_series_title_cell s = some t →
        t.rowStart ≠ valR.rowStart - 1 → t.rowStart ≠ catR.rowStart - 1 →
        processSeries sheets acc s =
          ⟨some (build_grid_range cid catR.rowStart catR.rowEnd
              catR.colStart catR.colEnd),
            acc.ranges ++ [build_grid_range vid valR.rowStart valR.rowEnd
              valR.colStart valR.colEnd], acc.header⟩)) := by
  refine ⟨?_, ?_, ?_⟩
  · intro d hd
    refine ⟨?_, ?_, ?_⟩
    · intro t ht htr
      rw [processSeries]
      simp [hv, hc, ht, hd, htr, hvid]
    · intro ht
      rw [processSeries]
      simp [hv, hc, ht, hd, hvid]
    · intro t ht htr
      rw [processSeries]
      simp [hv, hc, ht, hd, hvid, if_neg htr]
  · intro hd cid hcid t ht htr htc
    rw [processSeries]
    simp only [hv, hc, ht, hd, hcid]
    rw [if_neg htr]
    simp [htc, hvid]
  · intro hd cid hcid
    refine ⟨?_, ?_, ?_, ?_⟩
    · intro t ht htr htc
      rw [processSeries]
      simp only [hv, hc, ht, hd, hcid]
      rw [if_pos htr]
      simp [htc, hvid]
      rw [← htc, htr]
    · intro t ht htr htc
      rw [processSeries]
      simp only [hv, hc, ht, hd, hcid]
      rw [if_pos htr]
      rw [if_neg htc]
      simp [hvid]
      rw [htr]
    · intro ht
      rw [processSeries]
      simp [hv, hc, ht, hd, hcid, hvid]
    · intro t ht htr htc
      rw [processSeries]
      simp only [hv, hc, ht, hd, hcid]
      rw [if_neg htr]
      rw [if_neg htc]
      simp [hvid]

/-- C8, witness: the amended claim applied to a concrete three-case
scenario: a title cell one row above the value range widens the series and
sets the header count; a domain-widening first series keeps its value start
row while setting the header count; and a domain-establishing series whose
title sits one row above its value range widens that series while leaving
the domain start untouched. -/
theorem C8_witness :
    processSeries [⟨strL "S", 7, 0, 0⟩] ⟨some ⟨7, 1, 9, 0, 1⟩, [], 0⟩
        ⟨some (strL "S!B5:B9"), some (strL "S!A3:A9"), none,
          some (strL "S!B4")⟩ =
      ⟨some ⟨7, 1, 9, 0, 1⟩,
        [build_grid_range 7 (5 - 1) 9 2 2], 1⟩ ∧
    processSeries [⟨strL "S", 7, 0, 0⟩] ⟨none, [], 0⟩
        ⟨some (strL "S!B5:B9"), some (strL "S!A3:A9"), none,
          some (strL "S!A2")⟩ =
      ⟨some (build_grid_range 7 (3 - 1) 9 1 1),
        [build_grid_range 7 5 9 2 2], 1⟩ ∧
    processSeries [⟨strL "S", 7, 0, 0⟩] ⟨none, [], 0⟩
        ⟨some (strL "S!B5:B9"), some (strL "S!A3:A9"), none,
          some (strL "S!B4")⟩ =
      ⟨some (build_grid_range 7 3 9 1 1),
        [build_grid_range 7 (5 - 1) 9 2 2], 1⟩ := by
  refine ⟨?_, ?_, ?_⟩
  · exact ((C8_theorem [⟨strL "S", 7, 0, 0⟩] ⟨some ⟨7, 1, 9, 0, 1⟩, [], 0⟩
      ⟨some (strL "S!B5:B9"), some (strL "S!A3:A9"), none,
        some (strL "S!B4")⟩ ⟨strL "S", 5, 9, 2, 2⟩ ⟨strL "S", 3, 9, 1, 1⟩ 7
      (by decide) (by decide) (by decide)).1 ⟨7, 1, 9, 0, 1⟩ rfl).1
      ⟨strL "S", 4, 4, 2, 2⟩ (by decide) (by decide)
  · exact (C8_theorem [⟨strL "S", 7, 0, 0⟩] ⟨none, [], 0⟩
      ⟨some (strL "S!B5:B9"), some (strL "S!A3:A9"), none,
        some (strL "S!A2")⟩ ⟨strL "S", 5, 9, 2, 2⟩ ⟨strL "S", 3, 9, 1, 1⟩ 7
      (by decide) (by decide) (by decide)).2.1 rfl 7 (by decide)
      ⟨strL "S", 2, 2, 1, 1⟩ (by decide) (by decide) (by decide)
  · exact ((C8_theorem [⟨strL "S", 7, 0, 0⟩] ⟨none, [], 0⟩
      ⟨some (strL "S!B5:B9"), some (strL "S!A3:A9"), none,
        some (strL "S!B4")⟩ ⟨strL "S", 5, 9, 2, 2⟩ ⟨strL "S", 3, 9, 1, 1⟩ 7
      (by decide) (by decide) (by decide)).2.2 rfl 7 (by decide)).2.1
      ⟨strL "S", 4, 4, 2, 2⟩ (by decide) (by decide) (by decide)

/-! ### Claim C10 -/

theorem rows_with_data_eq_nil (startRow maxCols : ℕ) :
    ∀ (values : List (List (Option (List Char)))) (idx : ℕ),
      (rows_with_data startRow maxCols idx values = [] ↔
        ∀ i, i < values.length →
          ¬(startRow ≤ idx + i ∧
            rowHasData maxCols (values.getD i []) = true)) := by
  intro values
  induction values with
  | nil => simp [rows_with_data]
  | cons r rs ih =>
    intro idx
    rw [rows_with_data]
    constructor
    · intro h i hi
      rcases List.append_eq_nil.mp h with ⟨h1, h2⟩
      rcases i with _ | j
      · intro ⟨hs, hdata⟩
        simp only [List.getD_cons_zero] at hdata
        rw [Nat.add_zero] at hs
        simp [hs, hdata] at h1
      · have := (ih (idx + 1)).mp h2 j (by simpa using hi)
        intro ⟨hs, hdata⟩
        apply this
        constructor
        · omega
        · simpa using hdata
    · intro h
      apply List.append_eq_nil.mpr
      constructor
      · have := h 0 (by simp)
        rcases hcond : (decide (startRow ≤ idx) && rowHasData maxCols r) with _ | _
        · simp [hcond]
        · exfalso
          apply this
          simp only [Bool.and_eq_true, decide_eq_true_eq] at hcond
          exact ⟨by omega, by simpa using hcond.2⟩
      · apply (ih (idx + 1)).mpr
        intro j hj
        have := h (j + 1) (by simpa using hj)
        intro ⟨hs, hdata⟩
        apply this
        constructor
        · omega
        · simpa using hdata

theorem rows_with_data_ge (startRow maxCols : ℕ) :
    ∀ (values : List (List (Option (List Char)))) (idx x : ℕ),
      x ∈ rows_with_data startRow maxCols idx values →
        startRow ≤ x ∧ idx ≤ x := by
  intro values
  induction values with
  | nil => simp [rows_with_data]
  | cons r rs ih =>
    intro idx x hx
    rw [rows_with_data] at hx
    rcases List.mem_append.mp hx with h | h
    · rcases hcond : (decide (startRow ≤ idx) && rowHasData maxCols r) with _ | _
      · rw [hcond] at h
        simp at h
      · rw [hcond] at h
        simp only [if_true, List.mem_singleton] at h
        subst h
        simp only [Bool.and_eq_true, decide_eq_true_eq] at hcond
        exact ⟨hcond.1, le_refl x⟩
    · have := ih (idx + 1) x h
      exact ⟨this.1, by omega⟩

theorem rows_with_data_sorted (startRow maxCols : ℕ) :
    ∀ (values : List (List (Option (List Char)))) (idx : ℕ),
      (rows_with_data startRow maxCols idx values).Pairwise (· < ·) := by
  intro values
  induction values with
  | nil =>
    intro idx
    simp [rows_with_data]
  | cons r rs ih =>
    intro idx
    rw [rows_with_data]
    rcases hcond : (decide (startRow ≤ idx) && rowHasData maxCols r) with _ | _
    · simpa using ih (idx + 1)
    · simp only [if_true, List.singleton_append, List.pairwise_cons]
      refine ⟨?_, ih (idx + 1)⟩
      intro y hy
      have := (rows_with_data_ge startRow maxCols rs (idx + 1) y hy).2
      omega

theorem getLast?_mem : ∀ {l : List ℕ} {b : ℕ}, l.getLast? = some b → b ∈ l := by
  intro l
  induction l with
  | nil => intro b h; cases h
  | cons a t ih =>
    intro b h
    rcases t with _ | ⟨c, ts⟩
    · simp only [List.getLast?_singleton, Option.some.injEq] at h
      subst h
      simp
    · rw [List.getLast?_cons_cons] at h
      exact List.mem_cons_of_mem a (ih h)

theorem sorted_head_le {l : List ℕ} (h : l.Pairwise (· < ·)) {a : ℕ}
    (ha : l.head? = some a) : ∀ x ∈ l, a ≤ x := by
  rcases l with _ | ⟨c, t⟩
  · cases ha
  · simp only [List.head?_cons, Option.some.injEq] at ha
    subst ha
    intro x hx
    rcases List.mem_cons.mp hx with hx | hx
    · omega
    · have := (List.pairwise_cons.mp h).1 x hx
      omega

theorem sorted_le_getLast : ∀ {l : List ℕ}, l.Pairwise (· < ·) →
    ∀ {b : ℕ}, l.getLast? = some b → ∀ x ∈ l, x ≤ b := by
  intro l
  induction l with
  | nil => intro _ b h; cases h
  | cons a t ih =>
    intro hp b hb x hx
    rcases t with _ | ⟨c, ts⟩
    · simp only [List.getLast?_singleton, Option.some.injEq] at hb
      subst hb
      rcases List.mem_singleton.mp hx with rfl
      exact le_refl x
    · rw [List.getLast?_cons_cons] at hb
      have hp' := List.pairwise_cons.mp hp
      rcases List.mem_cons.mp hx with hx | hx
      · subst hx
        have hbmem := getLast?_mem hb
        have := hp'.1 b hbmem
        omega
      · exact ih hp'.2 hb x hx

theorem find_some_of_rows {values : List (List (Option (List Char)))}
    {n startRow maxCols : ℕ} (hn : 1 ≤ n)
    (hne : rows_with_data startRow maxCols 1 values ≠ []) :
    ∃ a b,
      find_last_n_data_rows values n startRow maxCols = some (a, b) ∧
      ((rows_with_data startRow maxCols 1 values).drop
        ((rows_with_data startRow maxCols 1 values).length - n)).head? =
          some a ∧
      ((rows_with_data startRow maxCols 1 values).drop
        ((rows_with_data startRow maxCols 1 values).length - n)).getLast? =
          some b := by
  have hrne : (rows_with_data startRow maxCols 1 values).isEmpty = false := by
    simpa [List.isEmpty_iff] using hne
  have hn0 : ¬ n = 0 := by omega
  obtain ⟨c, t, hsel⟩ : ∃ c t,
      (rows_with_data startRow maxCols 1 values).drop
        ((rows_with_data startRow maxCols 1 values).length - n) = c :: t := by
    rcases hS : (rows_with_data startRow maxCols 1 values).drop
        ((rows_with_data startRow maxCols 1 values).length - n) with
        _ | ⟨c, t⟩
    · exfalso
      have hlenR : 0 < (rows_with_data startRow maxCols 1 values).length := by
        rcases hrows : rows_with_data startRow maxCols 1 values with
            _ | ⟨x, xs⟩
        · exact absurd hrows hne
        · simp
      have := congrArg List.length hS
      rw [List.length_drop] at this
      simp only [List.length_nil] at this
      omega
    · exact ⟨c, t, rfl⟩
  obtain ⟨b, hgl⟩ : ∃ b, (c :: t).getLast? = some b := by
    rcases hgl2 : (c :: t).getLast? with _ | b
    · rw [List.getLast?_eq_none_iff] at hgl2
      cases hgl2
    · exact ⟨b, rfl⟩
  refine ⟨c, b, ?_, by rw [hsel]; simp, by rw [hsel]; exact hgl⟩
  simp only [find_last_n_data_rows, hrne, Bool.false_eq_true, if_false,
    if_neg hn0, hsel, hgl, List.head?_cons]

/-- C10: `find_last_n_data_rows` returns `none` exactly when no row at
1-based index `≥ startRow` has a data cell among its first `maxCols` cells;
otherwise it returns the first and last of the last `min(n, k)` qualifying
indices (`k` the number of qualifying rows), which are that segment's
minimum and maximum, so `startRow ≤ first ≤ last` always holds. -/
theorem C10_theorem (values : List (List (Option (List Char))))
    (n startRow maxCols : ℕ) (hn : 1 ≤ n) (f l : ℕ) :
    (find_last_n_data_rows values n startRow maxCols = none ↔
      anyDataRowFrom startRow maxCols values = false) ∧
    (find_last_n_data_rows values n startRow maxCols = some (f, l) →
      ((rows_with_data startRow maxCols 1 values).drop
        ((rows_with_data startRow maxCols 1 values).length - n)).head? =
          some f ∧
      ((rows_with_data startRow maxCols 1 values).drop
        ((rows_with_data startRow maxCols 1 values).length - n)).getLast? =
          some l ∧
      (∀ x ∈ (rows_with_data startRow maxCols 1 values).drop
        ((rows_with_data startRow maxCols 1 values).length - n),
        f ≤ x ∧ x ≤ l) ∧
      startRow ≤ f ∧ f ≤ l) := by
  have hranynil : rows_with_data startRow maxCols 1 values = [] ↔
      anyDataRowFrom startRow maxCols values = false := by
    rw [rows_with_data_eq_nil]
    rw [anyDataRowFrom]
    rw [List.any_eq_false]
    constructor
    · intro h i hi
      simp only [List.mem_range] at hi
      have := h i hi
      simp only [Bool.and_eq_true, decide_eq_true_eq, not_and]
      intro hs hdata
      exact this ⟨by omega, hdata⟩
    · intro h i hi
      have := h i (List.mem_range.mpr hi)
      simp only [Bool.and_eq_true, decide_eq_true_eq, not_and] at this
      intro ⟨hs, hdata⟩
      exact this (by omega) hdata
  constructor
  · constructor
    · intro hnone
      by_contra hany
      have hne : rows_with_data startRow maxCols 1 values ≠ [] := by
        intro hnil
        exact hany (hranynil.mp hnil)
      obtain ⟨a, b, hfind, _, _⟩ := find_some_of_rows hn hne
      rw [hfind] at hnone
      cases hnone
    · intro hany
      rw [find_last_n_data_rows]
      rw [if_pos]
      rw [List.isEmpty_iff]
      exact hranynil.mpr hany
  · intro hfind
    have hne : rows_with_data startRow maxCols 1 values ≠ [] := by
      intro hnil
      rw [find_last_n_data_rows, if_pos (by simpa [List.isEmpty_iff]
        using hnil)] at hfind
      cases hfind
    obtain ⟨a, b, hfind2, hhead, hlast⟩ := find_some_of_rows hn hne
    rw [hfind2] at hfind
    have haf : a = f := by
      have := congrArg (fun p => (Option.map Prod.fst p)) hfind
      simpa using this
    have hbl : b = l := by
      have := congrArg (fun p => (Option.map Prod.snd p)) hfind
      simpa using this
    subst haf
    subst hbl
    have hsorted : ((rows_with_data startRow maxCols 1 values).drop
        ((rows_with_data startRow maxCols 1 values).length - n)).Pairwise
          (· < ·) :=
      List.Pairwise.sublist (List.drop_sublist _ _)
        (rows_with_data_sorted startRow maxCols values 1)
    have hbound : ∀ x ∈ (rows_with_data startRow maxCols 1 values).drop
        ((rows_with_data startRow maxCols 1 values).length - n),
        a ≤ x ∧ x ≤ b := by
      intro x hx
      exact ⟨sorted_head_le hsorted hhead x hx,
        sorted_le_getLast hsorted hlast x hx⟩
    refine ⟨hhead, hlast, hbound, ?_, ?_⟩
    · have hamem : a ∈ (rows_with_data startRow maxCols 1 values).drop
          ((rows_with_data startRow maxCols 1 values).length - n) := by
        rcases hsel : (rows_with_data startRow maxCols 1 values).drop
            ((rows_with_data startRow maxCols 1 values).length - n) with
            _ | ⟨c, t⟩
        · rw [hsel] at hhead
          cases hhead
        · rw [hsel] at hhead
          simp only [List.head?_cons, Option.some.injEq] at hhead
          subst hhead
          simp
      have := List.drop_subset _ _ hamem
      exact (rows_with_data_ge startRow maxCols values 1 a this).1
    · have hbmem := getLast?_mem hlast
      exact (hbound b hbmem).1

/-- C10, witness: the theorem applied to a one-row value list with data. -/
theorem C10_witness :
    find_last_n_data_rows [[some (strL "x")]] 1 1 1 = some (1, 1) ∧
      ((rows_with_data 1 1 1 [[some (strL "x")]]).drop
        ((rows_with_data 1 1 1 [[some (strL "x")]]).length - 1)).head? =
        some 1 := by
  refine ⟨by decide, ?_⟩
  exact ((C10_theorem [[some (strL "x")]] 1 1 1 (by decide) 1 1).2
    (by decide)).1

/-! ### Orchestration lemmas -/

theorem mem_joinAll {α : Type} {x : α} :
    ∀ {ls : List (List α)}, x ∈ joinAll ls ↔ ∃ l ∈ ls, x ∈ l := by
  intro ls
  induction ls with
  | nil => simp [joinAll]
  | cons l rest ih =>
    rw [joinAll]
    simp only [List.mem_append, ih, List.mem_cons]
    constructor
    · intro h
      rcases h with h | ⟨l2, hl2, hx⟩
      · exact ⟨l, Or.inl rfl, h⟩
      · exact ⟨l2, Or.inr hl2, hx⟩
    · intro ⟨l2, hl2, hx⟩
      rcases hl2 with h | h
      · subst h
        exact Or.inl hx
      · exact Or.inr ⟨l2, h, hx⟩

theorem flattenReqs_cons (c : RemoteCall) (l : List RemoteCall) :
    flattenReqs (c :: l) =
      (match c with
        | RemoteCall.batchUpdate reqs => reqs
        | _ => []) ++ flattenReqs l := rfl

theorem flattenReqs_append (a b : List RemoteCall) :
    flattenReqs (a ++ b) = flattenReqs a ++ flattenReqs b := by
  induction a with
  | nil => rfl
  | cons c t ih =>
    rw [List.cons_append, flattenReqs_cons, flattenReqs_cons, ih,
      List.append_assoc]

theorem flattenReqs_batch (reqs : List Request) :
    flattenReqs [.batchUpdate reqs] = reqs := by
  simp [flattenReqs, joinAll]

theorem flattenReqs_meta : flattenReqs [.getMetadata] = [] := rfl

theorem chainLe_append {xs ys : List ℕ} (hx : chainLe xs = true)
    (hy : chainLe ys = true) (hb : ∀ x ∈ xs, ∀ y ∈ ys, x ≤ y) :
    chainLe (xs ++ ys) = true := by
  induction xs with
  | nil => simpa using hy
  | cons a t ih =>
    rcases t with _ | ⟨b, t2⟩
    · rcases ys with _ | ⟨c, ys2⟩
      · simpa using hx
      · simp only [List.singleton_append, chainLe, Bool.and_eq_true,
          decide_eq_true_eq]
        exact ⟨hb a (by simp) c (by simp), hy⟩
    · rw [chainLe] at hx
      simp only [Bool.and_eq_true, decide_eq_true_eq] at hx
      have := ih hx.2 (by intro x hx2 y hy2; exact hb x (by simp [hx2]) y hy2)
      simp only [List.cons_append] at this ⊢
      rw [chainLe]
      simp only [Bool.and_eq_true, decide_eq_true_eq]
      exact ⟨hx.1, this⟩

theorem chainLe_const {l : List ℕ} {k : ℕ} (h : ∀ x ∈ l, x = k) :
    chainLe l = true := by
  induction l with
  | nil => rfl
  | cons a t ih =>
    rcases t with _ | ⟨b, t2⟩
    · rfl
    · rw [chainLe]
      simp only [Bool.and_eq_true, decide_eq_true_eq]
      constructor
      · rw [h a (by simp), h b (by simp)]
      · exact ih (by intro x hx; exact h x (by simp [List.mem_cons] at hx ⊢; tauto))

theorem phase_not_frozen {r : Request} {k : ℕ} (h : phaseOf r = some k) :
    isFrozenRestore r = false := by
  cases r <;> simp [phaseOf, isFrozenRestore] at h ⊢

theorem chart_phase {r : Request} (h : isChartReq r = true) :
    phaseOf r = some 6 := by
  cases r <;> simp [isChartReq, phaseOf] at h ⊢

theorem dropLast_append_all {P : Request → Bool} {F R : List Request}
    (hF : ∀ r ∈ F, P r = true) (hR : R = [] ∨ ∃ r, R = [r]) :
    (F ++ R).dropLast.all P = true := by
  rcases hR with h | ⟨r, h⟩
  · subst h
    rw [List.append_nil]
    rw [List.all_eq_true]
    intro x hx
    exact hF x ((List.dropLast_sublist F).subset hx)
  · subst h
    rw [show F ++ [r] = F ++ [r] from rfl, List.dropLast_concat]
    rw [List.all_eq_true]
    intro x hx
    exact hF x hx

theorem col_dim_request_phase {sid : ℕ} {p : List Char × Option ℚ}
    {a : List Request} (h : col_dim_request sid p = .ok a) :
    ∀ r ∈ a, phaseOf r = some 3 := by
  rw [col_dim_request] at h
  split at h
  · simp only [Except.ok.injEq] at h
    subst h
    simp
  · split at h
    · simp only [Except.ok.injEq] at h
      subst h
      simp
    · split at h
      · cases h
      · split at h
        · simp only [Except.ok.injEq] at h
          subst h
          simp
        · split at h
          · simp only [Except.ok.injEq] at h
            subst h
            simp
          · simp only [Except.ok.injEq] at h
            subst h
            intro r hr
            rcases List.mem_singleton.mp hr with rfl
            rfl

theorem col_dim_requests_phase {sid : ℕ} :
    ∀ {ps : List (List Char × Option ℚ)} {l : List Request},
      col_dim_requests sid ps = .ok l → ∀ r ∈ l, phaseOf r = some 3 := by
  intro ps
  induction ps with
  | nil =>
    intro l h
    rw [col_dim_requests] at h
    simp only [Except.ok.injEq] at h
    subst h
    simp
  | cons p rest ih =>
    intro l h
    rw [col_dim_requests] at h
    obtain ⟨a, ha, h2⟩ := except_bind_ok h
    obtain ⟨b, hb, h3⟩ := except_bind_ok h2
    simp only [Except.ok.injEq] at h3
    subst h3
    intro r hr
    rcases List.mem_append.mp hr with hr | hr
    · exact col_dim_request_phase ha r hr
    · exact ih hb r hr

theorem row_dim_request_phase {sid : ℕ} {p : ℕ × Option ℚ} :
    ∀ r ∈ row_dim_request sid p, phaseOf r = some 3 := by
  rw [row_dim_request]
  split
  · simp
  · split
    · simp
    · split
      · simp
      · split
        · simp
        · intro r hr
          rcases List.mem_singleton.mp hr with rfl
          rfl

theorem dims_phase {ws : Worksheet} {sid : ℕ} {dims : List Request}
    (h : build_dimension_requests ws sid = .ok dims) :
    ∀ r ∈ dims, phaseOf r = some 3 := by
  rw [build_dimension_requests] at h
  obtain ⟨cols, hcols, h2⟩ := except_bind_ok h
  simp only [Except.ok.injEq] at h2
  subst h2
  intro r hr
  rcases List.mem_append.mp hr with hr | hr
  · exact col_dim_requests_phase hcols r hr
  · obtain ⟨l, hl, hrl⟩ := mem_joinAll.mp hr
    obtain ⟨p, _, hp⟩ := List.mem_map.mp hl
    subst hp
    exact row_dim_request_phase r hrl

theorem merges_phase {ws : Worksheet} {sid : ℕ} :
    ∀ r ∈ build_merge_requests ws sid, phaseOf r = some 4 := by
  intro r hr
  obtain ⟨b, _, hb⟩ := List.mem_map.mp hr
  subst hb
  rfl

theorem cfs_phase {ws : Worksheet} {sid : ℕ} {cfs : List Request}
    (h : build_conditional_format_requests ws sid = .ok cfs) :
    ∀ r ∈ cfs, phaseOf r = some 5 := by
  intro r hr
  obtain ⟨_, hshape, _⟩ := build_cf_blocks_spec sid ws.dxfs ws.cfBlocks cfs h
  obtain ⟨g, f, bg, hform, _⟩ := hshape r hr
  subst hform
  rfl

theorem chart_step_mem {sheets : List SheetInfo} {newId : ℕ}
    {allowed : Option (List (List Char))} {acc : List Request}
    {chart : Chart} {r : Request}
    (h : r ∈ chart_step sheets newId allowed acc chart) :
    r ∈ acc ∨ phaseOf r = some 6 := by
  rw [chart_step] at h
  split at h
  · exact Or.inl h
  · split at h
    · exact Or.inl h
    · split at h
      · exact Or.inl h
      · split at h
        · exact Or.inl h
        · rcases List.mem_append.mp h with h | h
          · exact Or.inl h
          · rcases List.mem_singleton.mp h with rfl
            exact Or.inr rfl

theorem charts_phase {sheets : List SheetInfo} {ws : Worksheet} {newId : ℕ}
    {allowed : Option (List (List Char))} :
    ∀ r ∈ buildChartRequests sheets ws newId allowed, phaseOf r = some 6 := by
  rw [buildChartRequests]
  have main : ∀ (charts : List Chart) (acc : List Request),
      (∀ r ∈ acc, phaseOf r = some 6) →
      ∀ r ∈ charts.foldl (chart_step sheets newId allowed) acc,
        phaseOf r = some 6 := by
    intro charts
    induction charts with
    | nil =>
      intro acc hacc r hr
      exact hacc r hr
    | cons c cs ih =>
      intro acc hacc r hr
      rw [List.foldl_cons] at hr
      refine ih _ ?_ r hr
      intro r2 hr2
      rcases chart_step_mem hr2 with h | h
      · exact hacc r2 h
      · exact h
  exact main ws.charts [] (by simp)

theorem provisionLoop_calls_bounded :
    ∀ (N : ℕ) (inputs : List (List Char)), inputs.length ≤ N →
    ∀ (st : RunState) (dest : List Char),
    ∀ c ∈ (provisionLoop st dest inputs).calls,
      c = .getMetadata ∨ ∃ i, c = .batchUpdate [.deleteSheet i] := by
  intro N
  induction N with
  | zero =>
    intro inputs hlen st dest c hc
    have hnil : inputs = [] := by
      cases inputs with
      | nil => rfl
      | cons a t => simp at hlen
    subst hnil
    rw [provisionLoop] at hc
    split at hc
    · rcases List.mem_singleton.mp hc with rfl
      exact Or.inl rfl
    · rcases List.mem_singleton.mp hc with rfl
      exact Or.inl rfl
  | succ n ih =>
    intro inputs hlen st dest c hc
    cases inputs with
    | nil =>
      rw [provisionLoop] at hc
      split at hc
      · rcases List.mem_singleton.mp hc with rfl
        exact Or.inl rfl
      · rcases List.mem_singleton.mp hc with rfl
        exact Or.inl rfl
    | cons action rest =>
      rw [provisionLoop] at hc
      split at hc
      · rcases List.mem_singleton.mp hc with rfl
        exact Or.inl rfl
      · rename_i eid heq
        split at hc
        · rcases List.mem_singleton.mp hc with rfl
          exact Or.inl rfl
        · rename_i f0 rest2 heq2
          have hlen2 : rest2.length ≤ n := by
            have := congrArg List.length heq2
            simp only [List.length_cons] at this hlen
            omega
          try dsimp only at hc
          split at hc
          · rcases List.mem_cons.mp hc with h | h
            · exact Or.inl h
            · rcases List.mem_singleton.mp h with rfl
              exact Or.inr ⟨eid, rfl⟩
          · split at hc
            · rcases rest2 with _ | ⟨newName, rest3⟩
              · try dsimp only at hc
                rcases List.mem_singleton.mp hc with rfl
                exact Or.inl rfl
              · try dsimp only at hc
                rcases List.mem_cons.mp hc with h | h
                · exact Or.inl h
                · refine ih rest3 ?_ st (pyStrip newName) c h
                  simp only [List.length_cons] at hlen2
                  omega
            · split at hc
              · rcases List.mem_singleton.mp hc with rfl
                exact Or.inl rfl
              · try dsimp only at hc
                rcases List.mem_cons.mp hc with h | h
                · exact Or.inl h
                · exact ih rest2 hlen2 st dest c h

theorem provisionLoop_calls (st : RunState) (dest : List Char)
    (inputs : List (List Char)) :
    ∀ c ∈ (provisionLoop st dest inputs).calls,
      c = .getMetadata ∨ ∃ i, c = .batchUpdate [.deleteSheet i] :=
  provisionLoop_calls_bounded inputs.length inputs (le_refl _) st dest

theorem provisionLoop_flatten (st : RunState) (dest : List Char)
    (inputs : List (List Char)) :
    ∀ r ∈ flattenReqs (provisionLoop st dest inputs).calls,
      phaseOf r = none ∧ isFrozenRestore r = false ∧ isChartReq r = false := by
  intro r hr
  rw [flattenReqs] at hr
  obtain ⟨l, hl, hrl⟩ := mem_joinAll.mp hr
  obtain ⟨c, hc, hcl⟩ := List.mem_map.mp hl
  rcases provisionLoop_calls st dest inputs c hc with h | ⟨i, h⟩
  · subst h
    subst hcl
    simp at hrl
  · subst h
    subst hcl
    rcases List.mem_singleton.mp hrl with rfl
    exact ⟨rfl, rfl, rfl⟩

theorem provisionLoop_nocopy (st : RunState) (dest : List Char)
    (inputs : List (List Char)) :
    ∀ c ∈ (provisionLoop st dest inputs).calls, isCopyToCall c = false := by
  intro c hc
  rcases provisionLoop_calls st dest inputs c hc with h | ⟨i, h⟩ <;> subst h <;>
    rfl

theorem dropLast_append_ne {α : Type} {A B : List α} (h : B ≠ []) :
    (A ++ B).dropLast = A ++ B.dropLast := by
  induction A with
  | nil => simp
  | cons a t ih =>
    rw [List.cons_append]
    rw [List.dropLast_cons_of_ne_nil (by simp [h])]
    rw [ih, List.cons_append]

theorem copy_phases_acc (st : RunState) (ws : Worksheet) (newId : ℕ)
    (tUsed : Option ℕ) (fr fc : ℕ) (bc : Bool)
    (allowed : Option (List (List Char))) (acc : List RemoteCall) :
    copy_phases st ws newId tUsed fr fc bc allowed acc =
      ⟨acc ++ (copy_phases st ws newId tUsed fr fc bc allowed []).calls,
        (copy_phases st ws newId tUsed fr fc bc allowed []).state,
        (copy_phases st ws newId tUsed fr fc bc allowed []).result⟩ := by
  simp only [copy_phases]
  split
  · simp
  · split
    · simp
    · simp [List.append_assoc]

theorem copy_phases_core_decomp (st : RunState) (ws : Worksheet)
    (newId : ℕ) (tUsed : Option ℕ) (fr fc : ℕ) (bc : Bool)
    (allowed : Option (List (List Char))) (dims cfs : List Request)
    (hdims : build_dimension_requests ws newId = .ok dims)
    (hcfs : build_conditional_format_requests ws newId = .ok cfs) :
    ∃ chartReqs : List Request,
      (copy_phases st ws newId tUsed fr fc bc allowed []).calls =
        [RemoteCall.batchUpdate
          ([Request.updateSheetGrid newId (build_rows ws).2.1
              (build_rows ws).2.2,
            Request.updateCells
              ⟨newId, 0, ((build_rows ws).2.1 : ℤ), 0,
                ((build_rows ws).2.2 : ℤ)⟩ (build_rows ws).1] ++
            dims ++ build_merge_requests ws newId ++ cfs)] ++
        (if chartReqs.isEmpty then []
          else [RemoteCall.batchUpdate chartReqs]) ++
        (if fr ≠ 0 || fc ≠ 0 then
          [RemoteCall.batchUpdate [Request.updateSheetFrozen newId fr fc]]
         else []) ∧
      (copy_phases st ws newId tUsed fr fc bc allowed []).result =
        .ok (some newId) ∧
      (∀ r ∈ chartReqs, phaseOf r = some 6) ∧
      (template_id_falsy tUsed = false → chartReqs = []) := by
  refine ⟨if bc && template_id_falsy tUsed then
      buildChartRequests (applyBatch st
        ([Request.updateSheetGrid newId (build_rows ws).2.1
            (build_rows ws).2.2,
          Request.updateCells
            ⟨newId, 0, ((build_rows ws).2.1 : ℤ), 0,
              ((build_rows ws).2.2 : ℤ)⟩ (build_rows ws).1] ++
          dims ++ build_merge_requests ws newId ++ cfs)).sheets ws newId
        allowed
    else [], ?_, ?_, ?_, ?_⟩
  · simp only [copy_phases, hdims, hcfs, List.nil_append]
  · simp only [copy_phases, hdims, hcfs]
  · split
    · intro r hr
      exact charts_phase r hr
    · intro r hr
      simp at hr
  · intro ht
    rw [ht]
    simp

theorem not_chart_of_phase {r : Request} {k : ℕ} (hk : phaseOf r = some k)
    (hne : k ≠ 6) : isChartReq r = false := by
  cases hcr : isChartReq r
  · rfl
  · have := chart_phase hcr
    rw [hk] at this
    exact absurd (Option.some.inj this) hne

theorem copy_phases_core_props (st : RunState) (ws : Worksheet) (newId : ℕ)
    (tUsed : Option ℕ) (fr fc : ℕ) (bc : Bool)
    (allowed : Option (List (List Char))) (sid : ℕ)
    (h : (copy_phases st ws newId tUsed fr fc bc allowed []).result =
      .ok (some sid)) :
    chainLe ((flattenReqs (copy_phases st ws newId tUsed fr fc bc allowed
        []).calls).filterMap phaseOf) = true ∧
    (flattenReqs (copy_phases st ws newId tUsed fr fc bc allowed
      []).calls).dropLast.all (fun r => !isFrozenRestore r) = true ∧
    flattenReqs (copy_phases st ws newId tUsed fr fc bc allowed []).calls ≠
      [] ∧
    (copy_phases st ws newId tUsed fr fc bc allowed []).calls.all
      (fun c => !isCopyToCall c) = true ∧
    (template_id_falsy tUsed = false →
      (flattenReqs (copy_phases st ws newId tUsed fr fc bc allowed
        []).calls).any isChartReq = false) := by
  rcases hdims : build_dimension_requests ws newId with e | dims
  · exfalso
    simp [copy_phases, hdims] at h
  rcases hcfs : build_conditional_format_requests ws newId with e | cfs
  · exfalso
    simp [copy_phases, hdims, hcfs] at h
  obtain ⟨CH, hcalls, hres, hch6, htch⟩ :=
    copy_phases_core_decomp st ws newId tUsed fr fc bc allowed dims cfs
      hdims hcfs
  have hflatch : flattenReqs
      (if CH.isEmpty then [] else [RemoteCall.batchUpdate CH]) = CH := by
    split
    · rename_i hemp
      rw [List.isEmpty_iff] at hemp
      rw [hemp]
      rfl
    · exact flattenReqs_batch CH
  have hflatrs : flattenReqs
      (if fr ≠ 0 || fc ≠ 0 then
        [RemoteCall.batchUpdate [Request.updateSheetFrozen newId fr fc]]
       else []) =
      (if fr ≠ 0 || fc ≠ 0 then [Request.updateSheetFrozen newId fr fc]
       else []) := by
    split
    · exact flattenReqs_batch _
    · rfl
  have hflat : flattenReqs
      (copy_phases st ws newId tUsed fr fc bc allowed []).calls =
      (([Request.updateSheetGrid newId (build_rows ws).2.1
          (build_rows ws).2.2,
        Request.updateCells
          ⟨newId, 0, ((build_rows ws).2.1 : ℤ), 0,
            ((build_rows ws).2.2 : ℤ)⟩ (build_rows ws).1] ++
          dims ++ build_merge_requests ws newId ++ cfs) ++ CH) ++
      (if fr ≠ 0 || fc ≠ 0 then [Request.updateSheetFrozen newId fr fc]
       else []) := by
    rw [hcalls, flattenReqs_append, flattenReqs_append, flattenReqs_batch,
      hflatch, hflatrs]
  have hD : ∀ x ∈ dims, phaseOf x = some 3 := dims_phase hdims
  have hM : ∀ x ∈ build_merge_requests ws newId, phaseOf x = some 4 :=
    merges_phase
  have hC : ∀ x ∈ cfs, phaseOf x = some 5 := cfs_phase hcfs
  have hmain : ∀ r ∈ ([Request.updateSheetGrid newId (build_rows ws).2.1
      (build_rows ws).2.2,
      Request.updateCells
        ⟨newId, 0, ((build_rows ws).2.1 : ℤ), 0,
          ((build_rows ws).2.2 : ℤ)⟩ (build_rows ws).1] ++
      dims ++ build_merge_requests ws newId ++ cfs) ++ CH,
      ∃ k, phaseOf r = some k ∧ k ≤ 6 := by
    intro r hr
    rcases List.mem_append.mp hr with hr | hr
    · rcases List.mem_append.mp hr with hr | hr
      · rcases List.mem_append.mp hr with hr | hr
        · rcases List.mem_append.mp hr with hr | hr
          · rcases List.mem_cons.mp hr with rfl | hr
            · exact ⟨1, rfl, by omega⟩
            · rcases List.mem_singleton.mp hr with rfl
              exact ⟨2, rfl, by omega⟩
          · exact ⟨3, hD r hr, by omega⟩
        · exact ⟨4, hM r hr, by omega⟩
      · exact ⟨5, hC r hr, by omega⟩
    · exact ⟨6, hch6 r hr, by omega⟩
  refine ⟨?_, ?_, ?_, ?_, ?_⟩
  · -- phase order
    rw [hflat]
    rw [List.filterMap_append]
    have hrsnil : ((if fr ≠ 0 || fc ≠ 0 then
        [Request.updateSheetFrozen newId fr fc] else []) :
        List Request).filterMap phaseOf = [] := by
      split <;> rfl
    rw [hrsnil, List.append_nil]
    rw [List.filterMap_append]
    have step : ∀ (A : List Request) (ka : ℕ),
        (∀ x ∈ A, phaseOf x = some ka) →
        ∀ x ∈ A.filterMap phaseOf, x = ka := by
      intro A ka hA x hx
      obtain ⟨r, hr, hpr⟩ := List.mem_filterMap.mp hx
      have := hA r hr
      rw [this] at hpr
      exact (Option.some.inj hpr).symm
    have hCH' := step CH 6 hch6
    rw [List.filterMap_append, List.filterMap_append, List.filterMap_append]
    have h12 : ([Request.updateSheetGrid newId (build_rows ws).2.1
        (build_rows ws).2.2,
        Request.updateCells
          ⟨newId, 0, ((build_rows ws).2.1 : ℤ), 0,
            ((build_rows ws).2.2 : ℤ)⟩ (build_rows ws).1] :
        List Request).filterMap phaseOf = [1, 2] := rfl
    rw [h12]
    have hD' := step dims 3 hD
    have hM' := step (build_merge_requests ws newId) 4 hM
    have hC' := step cfs 5 hC
    simp only [List.append_assoc]
    apply chainLe_append (by decide)
    · apply chainLe_append (chainLe_const hD')
      · apply chainLe_append (chainLe_const hM')
        · apply chainLe_append (chainLe_const hC') (chainLe_const hCH')
          intro x hx y hy
          rw [hC' x hx, hCH' y hy]
          omega
        · intro x hx y hy
          rw [hM' x hx]
          rcases List.mem_append.mp hy with hy | hy
          · rw [hC' y hy]
            omega
          · rw [hCH' y hy]
            omega
      · intro x hx y hy
        rw [hD' x hx]
        rcases List.mem_append.mp hy with hy | hy
        · rw [hM' y hy]
          omega
        · rcases List.mem_append.mp hy with hy | hy
          · rw [hC' y hy]
            omega
          · rw [hCH' y hy]
            omega
    · intro x hx y hy
      have hx2 : x = 1 ∨ x = 2 := by
        rcases List.mem_cons.mp hx with rfl | hx
        · exact Or.inl rfl
        · rcases List.mem_singleton.mp hx with rfl
          exact Or.inr rfl
      have hy3 : 3 ≤ y := by
        rcases List.mem_append.mp hy with hy | hy
        · rw [hD' y hy]
        · rcases List.mem_append.mp hy with hy | hy
          · rw [hM' y hy]
            omega
          · rcases List.mem_append.mp hy with hy | hy
            · rw [hC' y hy]
              omega
            · rw [hCH' y hy]
              omega
      omega
  · -- frozen restore last
    rw [hflat]
    apply dropLast_append_all
    · intro r hr
      obtain ⟨k, hk, _⟩ := hmain r hr
      rw [phase_not_frozen hk]
      rfl
    · split
      · exact Or.inr ⟨_, rfl⟩
      · exact Or.inl rfl
  · -- nonempty
    rw [hflat]
    simp
  · -- no copyTo among the calls
    rw [hcalls]
    rw [List.all_eq_true]
    intro c hc
    rcases List.mem_append.mp hc with hc | hc
    · rcases List.mem_append.mp hc with hc | hc
      · rcases List.mem_singleton.mp hc with rfl
        rfl
      · revert hc
        split
        · intro hc
          simp at hc
        · intro hc
          rcases List.mem_singleton.mp hc with rfl
          rfl
    · revert hc
      split
      · intro hc
        rcases List.mem_singleton.mp hc with rfl
        rfl
      · intro hc
        simp at hc
  · -- template means no chart requests
    intro ht
    rw [hflat]
    rw [List.any_eq_false]
    intro r hr
    rcases List.mem_append.mp hr with hr | hr
    · rcases List.mem_append.mp hr with hr | hr
      · rcases List.mem_append.mp hr with hr | hr
        · rcases List.mem_append.mp hr with hr | hr
          · rcases List.mem_append.mp hr with hr | hr
            · rcases List.mem_cons.mp hr with rfl | hr
              · simp [isChartReq]
              · rcases List.mem_singleton.mp hr with rfl
                simp [isChartReq]
            · simp [not_chart_of_phase (hD r hr) (by omega)]
          · simp [not_chart_of_phase (hM r hr) (by omega)]
        · simp [not_chart_of_phase (hC r hr) (by omega)]
      · rw [htch ht] at hr
        simp at hr
    · revert hr
      split
      · intro hr
        rcases List.mem_singleton.mp hr with rfl
        simp [isChartReq]
      · intro hr
        simp at hr

theorem flatten_props_prefix {A F : List Request}
    (hA : ∀ r ∈ A, phaseOf r = none ∧ isFrozenRestore r = false ∧
      isChartReq r = false)
    (h1 : chainLe (F.filterMap phaseOf) = true)
    (h2 : F.dropLast.all (fun r => !isFrozenRestore r) = true)
    (h3 : F ≠ []) :
    chainLe ((A ++ F).filterMap phaseOf) = true ∧
    (A ++ F).dropLast.all (fun r => !isFrozenRestore r) = true ∧
    A ++ F ≠ [] ∧
    (A ++ F).any isChartReq = F.any isChartReq := by
  have hAnil : A.filterMap phaseOf = [] := by
    rw [List.filterMap_eq_nil_iff]
    intro r hr
    exact (hA r hr).1
  refine ⟨?_, ?_, ?_, ?_⟩
  · rw [List.filterMap_append, hAnil, List.nil_append]
    exact h1
  · rw [dropLast_append_ne h3, List.all_append]
    refine Bool.and_eq_true_iff.mpr ⟨?_, h2⟩
    rw [List.all_eq_true]
    intro r hr
    rw [(hA r hr).2.1]
    rfl
  · simp [h3]
  · rw [List.any_append]
    have : A.any isChartReq = false := by
      rw [List.any_eq_false]
      intro r hr
      rw [(hA r hr).2.2]
      exact Bool.false_ne_true
    rw [this, Bool.false_or]

theorem copy_main_props (st0 : RunState) (ws : Worksheet)
    (dest cts : List Char) (bc : Bool)
    (allowed : Option (List (List Char))) (sid : ℕ)
    (h : (copy_main st0 ws dest cts bc allowed).result = .ok (some sid)) :
    chainLe ((flattenReqs (copy_main st0 ws dest cts bc
        allowed).calls).filterMap phaseOf) = true ∧
    (flattenReqs (copy_main st0 ws dest cts bc
      allowed).calls).dropLast.all (fun r => !isFrozenRestore r) = true ∧
    flattenReqs (copy_main st0 ws dest cts bc allowed).calls ≠ [] ∧
    ((flattenReqs (copy_main st0 ws dest cts bc allowed).calls).any
        isChartReq = true →
      (copy_main st0 ws dest cts bc allowed).calls.all
        (fun c => !isCopyToCall c) = true ∨
      RemoteCall.copyTo 0 ∈ (copy_main st0 ws dest cts bc
        allowed).calls) := by
  simp only [copy_main] at h ⊢
  split at h
  · rename_i props heq
    rw [heq] at *
    try dsimp only at h
    try dsimp only
    rw [copy_phases_acc] at h ⊢
    try dsimp only at h
    try dsimp only
    obtain ⟨h1, h2, h3, h4, h5⟩ :=
      copy_phases_core_props _ _ _ _ _ _ _ _ _ h
    have hA : ∀ r ∈ flattenReqs
        ((if cts.isEmpty then ([] : List RemoteCall)
          else [RemoteCall.getMetadata]) ++
          [RemoteCall.copyTo props.sheetId,
            RemoteCall.batchUpdate
              [Request.updateSheetTitle (applyCopyTo st0 props.sheetId).2
                dest]] ++
          (if props.frozenRows ≠ 0 || props.frozenCols ≠ 0 then
            [RemoteCall.batchUpdate
              [Request.updateSheetFrozen (applyCopyTo st0 props.sheetId).2
                0 0]]
           else [])),
        phaseOf r = none ∧ isFrozenRestore r = false ∧
          isChartReq r = false := by
      intro r hr
      rw [flattenReqs_append, flattenReqs_append] at hr
      rcases List.mem_append.mp hr with hr | hr
      · rcases List.mem_append.mp hr with hr | hr
        · revert hr
          split
          · intro hr
            simp [flattenReqs, joinAll] at hr
          · intro hr
            rw [flattenReqs_meta] at hr
            simp at hr
        · rw [flattenReqs_cons, flattenReqs_batch] at hr
          rcases List.mem_singleton.mp (by simpa using hr) with rfl
          exact ⟨rfl, rfl, rfl⟩
      · revert hr
        split
        · intro hr
          rw [flattenReqs_batch] at hr
          rcases List.mem_singleton.mp hr with rfl
          exact ⟨rfl, rfl, rfl⟩
        · intro hr
          simp [flattenReqs, joinAll] at hr
    rw [flattenReqs_append]
    obtain ⟨g1, g2, g3, g4⟩ := flatten_props_prefix hA h1 h2 h3
    refine ⟨g1, g2, g3, ?_⟩
    intro hany
    by_cases hps : props.sheetId = 0
    · refine Or.inr ?_
      rw [hps]
      simp
    · have hfal : template_id_falsy (some props.sheetId) = false := by
        simp [template_id_falsy, hps]
      have hnoch := h5 hfal
      rw [g4, hnoch] at hany
      exact absurd hany Bool.false_ne_true
  · rename_i heq
    rw [heq] at *
    try dsimp only at h
    try dsimp only
    rw [copy_phases_acc] at h ⊢
    try dsimp only at h
    try dsimp only
    obtain ⟨h1, h2, h3, h4, h5⟩ :=
      copy_phases_core_props _ _ _ _ _ _ _ _ _ h
    have hA : ∀ r ∈ flattenReqs
        ((if cts.isEmpty then ([] : List RemoteCall)
          else [RemoteCall.getMetadata]) ++
          [RemoteCall.batchUpdate [Request.addSheet dest]]),
        phaseOf r = none ∧ isFrozenRestore r = false ∧
          isChartReq r = false := by
      intro r hr
      rw [flattenReqs_append] at hr
      rcases List.mem_append.mp hr with hr | hr
      · revert hr
        split
        · intro hr
          simp [flattenReqs, joinAll] at hr
        · intro hr
          rw [flattenReqs_meta] at hr
          simp at hr
      · rw [flattenReqs_batch] at hr
        rcases List.mem_singleton.mp hr with rfl
        exact ⟨rfl, rfl, rfl⟩
    rw [flattenReqs_append]
    obtain ⟨g1, g2, g3, g4⟩ := flatten_props_prefix hA h1 h2 h3
    refine ⟨g1, g2, g3, ?_⟩
    intro _
    refine Or.inl ?_
    rw [List.all_append]
    refine Bool.and_eq_true_iff.mpr ⟨?_, h4⟩
    rw [List.all_eq_true]
    intro c hc
    rcases List.mem_append.mp hc with hc | hc
    · revert hc
      split
      · intro hc
        simp at hc
      · intro hc
        rcases List.mem_singleton.mp hc with rfl
        rfl
    · rcases List.mem_singleton.mp hc with rfl
      rfl

theorem copy_after_resolve_props (st : RunState)
    (wb : List (List Char × Worksheet)) (resolved dest cts : List Char)
    (bc : Bool) (allowed : Option (List (List Char)))
    (inputs : List (List Char)) (sid : ℕ)
    (h : (copy_after_resolve st wb resolved dest cts bc allowed
      inputs).result = .ok (some sid)) :
    chainLe ((flattenReqs (copy_after_resolve st wb resolved dest cts bc
        allowed inputs).calls).filterMap phaseOf) = true ∧
    (flattenReqs (copy_after_resolve st wb resolved dest cts bc allowed
      inputs).calls).dropLast.all (fun r => !isFrozenRestore r) = true ∧
    ((flattenReqs (copy_after_resolve st wb resolved dest cts bc allowed
        inputs).calls).any isChartReq = true →
      (copy_after_resolve st wb resolved dest cts bc allowed
        inputs).calls.all (fun c => !isCopyToCall c) = true ∨
      RemoteCall.copyTo 0 ∈ (copy_after_resolve st wb resolved dest cts bc
        allowed inputs).calls) := by
  simp only [copy_after_resolve] at h ⊢
  split at h
  · simp at h
  · rename_i p heq
    rw [heq] at *
    try dsimp only at h
    try dsimp only
    split at h
    · simp at h
    · simp at h
    · rename_i dest2 heq2
      rw [heq2] at *
      try dsimp only at h
      try dsimp only
      obtain ⟨h1, h2, h3, h4⟩ := copy_main_props _ _ _ _ _ _ _ h
      have hA := provisionLoop_flatten st dest inputs
      rw [flattenReqs_append]
      obtain ⟨g1, g2, g3, g4⟩ := flatten_props_prefix hA h1 h2 h3
      refine ⟨g1, g2, ?_⟩
      intro hany
      rw [g4] at hany
      rcases h4 hany with hcm | hmem
      · refine Or.inl ?_
        rw [List.all_append]
        refine Bool.and_eq_true_iff.mpr ⟨?_, hcm⟩
        rw [List.all_eq_true]
        intro c hc
        rw [provisionLoop_nocopy st dest inputs c hc]
        rfl
      · exact Or.inr (List.mem_append.mpr (Or.inr hmem))

/-- C5, amended: every successful sheet copy issues its translated requests
in phase order (grid properties, bulk cell update, dimensions, merges,
conditional formats, charts) and issues the frozen-pane restoration, if
any, as the very last request; chart requests are issued only in runs that
used no template sheet (no `copyTo` duplication) or whose template sheet
has the falsy id `0` — line 705 gates charts on `not template_sheet_id`,
not on whether a template was used. -/
theorem C5_theorem (st : RunState) (wb : List (List Char × Worksheet))
    (source dest cts : List Char) (bc : Bool)
    (allowed : Option (List (List Char))) (inputs : List (List Char))
    (sid : ℕ)
    (h : (copy_sheet_from_excel st wb source dest cts bc allowed
      inputs).result = .ok (some sid)) :
    chainLe ((flattenReqs (copy_sheet_from_excel st wb source dest cts bc
        allowed inputs).calls).filterMap phaseOf) = true ∧
    (flattenReqs (copy_sheet_from_excel st wb source dest cts bc allowed
      inputs).calls).dropLast.all (fun r => !isFrozenRestore r) = true ∧
    ((flattenReqs (copy_sheet_from_excel st wb source dest cts bc allowed
        inputs).calls).any isChartReq = true →
      (copy_sheet_from_excel st wb source dest cts bc allowed
        inputs).calls.all (fun c => !isCopyToCall c) = true ∨
      RemoteCall.copyTo 0 ∈ (copy_sheet_from_excel st wb source dest cts bc
        allowed inputs).calls) := by
  simp only [copy_sheet_from_excel] at h ⊢
  split at h
  · rename_i resolved heq
    rw [heq] at *
    try dsimp only at h
    try dsimp only
    exact copy_after_resolve_props _ _ _ _ _ _ _ _ _ h
  · rename_i heq
    rw [heq] at *
    try dsimp only at h
    try dsimp only
    split at h
    · simp at h
    · rename_i retryName rest
      split at h
      · simp at h
      · rename_i hemp
        rw [if_neg hemp]
        split at h
        · simp at h
        · rename_i resolved heq2
          rw [heq2] at *
          try dsimp only at h
          try dsimp only
          exact copy_after_resolve_props _ _ _ _ _ _ _ _ _ h

theorem C5_witness :
    (copy_sheet_from_excel ⟨[], 0⟩
        [(strL "Dash",
          ⟨1, 1, fun _ _ => ⟨none, none⟩, [], [], [], [], [], []⟩)]
        (strL "Dash") (strL "Out") [] false none []).result =
      .ok (some 0) ∧
    (chainLe ((flattenReqs (copy_sheet_from_excel ⟨[], 0⟩
        [(strL "Dash",
          ⟨1, 1, fun _ _ => ⟨none, none⟩, [], [], [], [], [], []⟩)]
        (strL "Dash") (strL "Out") [] false none
        []).calls).filterMap phaseOf) = true ∧
      (flattenReqs (copy_sheet_from_excel ⟨[], 0⟩
        [(strL "Dash",
          ⟨1, 1, fun _ _ => ⟨none, none⟩, [], [], [], [], [], []⟩)]
        (strL "Dash") (strL "Out") [] false none
        []).calls).dropLast.all (fun r => !isFrozenRestore r) = true ∧
      ((flattenReqs (copy_sheet_from_excel ⟨[], 0⟩
        [(strL "Dash",
          ⟨1, 1, fun _ _ => ⟨none, none⟩, [], [], [], [], [], []⟩)]
        (strL "Dash") (strL "Out") [] false none
        []).calls).any isChartReq = true →
        (copy_sheet_from_excel ⟨[], 0⟩
        [(strL "Dash",
          ⟨1, 1, fun _ _ => ⟨none, none⟩, [], [], [], [], [], []⟩)]
        (strL "Dash") (strL "Out") [] false none []).calls.all
          (fun c => !isCopyToCall c) = true ∨
        RemoteCall.copyTo 0 ∈ (copy_sheet_from_excel ⟨[], 0⟩
        [(strL "Dash",
          ⟨1, 1, fun _ _ => ⟨none, none⟩, [], [], [], [], [], []⟩)]
        (strL "Dash") (strL "Out") [] false none []).calls)) :=
  ⟨rfl, C5_theorem ⟨[], 0⟩
    [(strL "Dash", ⟨1, 1, fun _ _ => ⟨none, none⟩, [], [], [], [], [], []⟩)]
    (strL "Dash") (strL "Out") [] false none [] 0 rfl⟩

theorem resolve_find {wb : List (List Char × Worksheet)}
    {source s0 : List Char}
    (hres : resolve_sheet_name wb source = some s0) :
    ∃ p, wb.find? (fun p => p.1 == s0) = some p := by
  rw [resolve_sheet_name] at hres
  split at hres
  · rename_i hany
    rcases Option.some.inj hres with rfl
    obtain ⟨p, hp, hps⟩ := List.any_eq_true.mp hany
    have : (wb.find? (fun p => p.1 == source)).isSome := by
      rw [List.find?_isSome]
      exact ⟨p, hp, hps⟩
    obtain ⟨q, hq⟩ := Option.isSome_iff_exists.mp this
    exact ⟨q, hq⟩
  · split at hres
    · exact absurd hres (by simp)
    · rename_i m t heq
      rcases Option.some.inj hres with rfl
      have hm : m ∈ wb := by
        have : m ∈ wb.filter
            (fun p => pyLower (pyStrip p.1) == pyLower (pyStrip source)) := by
          rw [heq]
          exact List.mem_cons_self m t
        exact List.mem_of_mem_filter this
      have : (wb.find? (fun p => p.1 == m.1)).isSome := by
        rw [List.find?_isSome]
        exact ⟨m, hm, by simp⟩
      obtain ⟨q, hq⟩ := Option.isSome_iff_exists.mp this
      exact ⟨q, hq⟩

theorem provisionLoop_skip (st : RunState) (dest : List Char) (eid : ℕ)
    (d : List Char) (rest : List (List Char))
    (hex : get_sheet_id_by_title st.sheets dest = some eid)
    (hd : pyLower (pyStrip d) = strL "s" ∨
      pyLower (pyStrip d) = strL "skip") :
    provisionLoop st dest (d :: rest) =
      ⟨[RemoteCall.getMetadata], st, ProvOutcome.skipped⟩ := by
  rw [provisionLoop, hex]
  have h1 : (pyLower (pyStrip d) == strL "o" ||
      pyLower (pyStrip d) == strL "overwrite") = false := by
    rcases hd with hd | hd <;> rw [hd] <;> decide
  have h2 : (pyLower (pyStrip d) == strL "r" ||
      pyLower (pyStrip d) == strL "rename") = false := by
    rcases hd with hd | hd <;> rw [hd] <;> decide
  have h3 : (pyLower (pyStrip d) == strL "s" ||
      pyLower (pyStrip d) == strL "skip") = true := by
    rcases hd with hd | hd <;> rw [hd] <;> decide
  simp only [h1, h2, h3, Bool.false_eq_true, if_false, if_true]

/-- C6: when the resolved source exists and the destination title is already
present, answering `skip` makes the copy return `None` having issued no
mutating remote call and leaving the remote document state (its sheet list,
hence its sheet count) unchanged; running the same copy again from the
resulting state with `skip` again likewise mutates nothing. -/
theorem C6_theorem (st : RunState) (wb : List (List Char × Worksheet))
    (source dest cts : List Char) (bc : Bool)
    (allowed : Option (List (List Char))) (s0 : List Char) (eid : ℕ)
    (d : List Char) (rest : List (List Char))
    (hres : resolve_sheet_name wb source = some s0)
    (hex : get_sheet_id_by_title st.sheets dest = some eid)
    (hd : pyLower (pyStrip d) = strL "s" ∨
      pyLower (pyStrip d) = strL "skip") :
    (copy_sheet_from_excel st wb source dest cts bc allowed
      (d :: rest)).result = .ok none ∧
    (copy_sheet_from_excel st wb source dest cts bc allowed
      (d :: rest)).state = st ∧
    (copy_sheet_from_excel st wb source dest cts bc allowed
      (d :: rest)).calls.filter isMutationCall = [] ∧
    (copy_sheet_from_excel (copy_sheet_from_excel st wb source dest cts bc
        allowed (d :: rest)).state wb source dest cts bc allowed
      (d :: rest)).state = st ∧
    (copy_sheet_from_excel (copy_sheet_from_excel st wb source dest cts bc
        allowed (d :: rest)).state wb source dest cts bc allowed
      (d :: rest)).calls.filter isMutationCall = [] := by
  obtain ⟨p, hfind⟩ := resolve_find hres
  have key : copy_sheet_from_excel st wb source dest cts bc allowed
      (d :: rest) = ⟨[RemoteCall.getMetadata], st, .ok none⟩ := by
    rw [copy_sheet_from_excel, hres]
    try dsimp only
    rw [copy_after_resolve, hfind]
    try dsimp only
    rw [provisionLoop_skip st dest eid d rest hex hd]
  refine ⟨by rw [key], by rw [key], by rw [key]; rfl, ?_, ?_⟩
  · rw [key]
    try dsimp only
    rw [key]
  · rw [key]
    try dsimp only
    rw [key]
    rfl

theorem C6_witness :
    resolve_sheet_name
        [(strL "Dash", (⟨1, 1, fun _ _ => ⟨none, none⟩, [], [], [], [], [], []⟩ : Worksheet))]
        (strL "Dash") = some (strL "Dash") ∧
    get_sheet_id_by_title [⟨strL "Tab", 3, 0, 0⟩] (strL "Tab") = some 3 ∧
    (pyLower (pyStrip (strL "s")) = strL "s" ∨
      pyLower (pyStrip (strL "s")) = strL "skip") ∧
    ((copy_sheet_from_excel (⟨[⟨strL "Tab", 3, 0, 0⟩], 10⟩ : RunState)
        [(strL "Dash", (⟨1, 1, fun _ _ => ⟨none, none⟩, [], [], [], [], [], []⟩ : Worksheet))]
        (strL "Dash") (strL "Tab") [] false none [strL "s"]).result = .ok none ∧
    (copy_sheet_from_excel (⟨[⟨strL "Tab", 3, 0, 0⟩], 10⟩ : RunState)
        [(strL "Dash", (⟨1, 1, fun _ _ => ⟨none, none⟩, [], [], [], [], [], []⟩ : Worksheet))]
        (strL "Dash") (strL "Tab") [] false none [strL "s"]).state = (⟨[⟨strL "Tab", 3, 0, 0⟩], 10⟩ : RunState) ∧
    (copy_sheet_from_excel (⟨[⟨strL "Tab", 3, 0, 0⟩], 10⟩ : RunState)
        [(strL "Dash", (⟨1, 1, fun _ _ => ⟨none, none⟩, [], [], [], [], [], []⟩ : Worksheet))]
        (strL "Dash") (strL "Tab") [] false none [strL "s"]).calls.filter isMutationCall = [] ∧
    (copy_sheet_from_excel (copy_sheet_from_excel (⟨[⟨strL "Tab", 3, 0, 0⟩], 10⟩ : RunState)
        [(strL "Dash", (⟨1, 1, fun _ _ => ⟨none, none⟩, [], [], [], [], [], []⟩ : Worksheet))]
        (strL "Dash") (strL "Tab") [] false none [strL "s"]).state
        [(strL "Dash", (⟨1, 1, fun _ _ => ⟨none, none⟩, [], [], [], [], [], []⟩ : Worksheet))]
        (strL "Dash") (strL "Tab") [] false none [strL "s"]).state = (⟨[⟨strL "Tab", 3, 0, 0⟩], 10⟩ : RunState) ∧
    (copy_sheet_from_excel (copy_sheet_from_excel (⟨[⟨strL "Tab", 3, 0, 0⟩], 10⟩ : RunState)
        [(strL "Dash", (⟨1, 1, fun _ _ => ⟨none, none⟩, [], [], [], [], [], []⟩ : Worksheet))]
        (strL "Dash") (strL "Tab") [] false none [strL "s"]).state
        [(strL "Dash", (⟨1, 1, fun _ _ => ⟨none, none⟩, [], [], [], [], [], []⟩ : Worksheet))]
        (strL "Dash") (strL "Tab") [] false none [strL "s"]).calls.filter isMutationCall = []) :=
  ⟨by decide, rfl, Or.inl (by decide),
    C6_theorem (⟨[⟨strL "Tab", 3, 0, 0⟩], 10⟩ : RunState)
      [(strL "Dash", (⟨1, 1, fun _ _ => ⟨none, none⟩, [], [], [], [], [], []⟩ : Worksheet))]
      (strL "Dash") (strL "Tab") [] false none (strL "Dash") 3 (strL "s")
      [] (by decide) rfl (Or.inl (by decide))⟩

/-- C5, counterexample: when the chart-template sheet exists and its sheet
id is `0`, `not template_sheet_id` is true on line 705, so one successful
run duplicates the template (a `copyTo` call) AND issues chart-creation
requests — refuting the claim that chart operations are issued only when no
template sheet was used. -/
theorem C5_counterexample :
    (copy_sheet_from_excel ⟨[⟨strL "Tmpl", 0, 0, 0⟩], 1⟩
        [(strL "Dash",
          ⟨1, 1, fun _ _ => ⟨none, none⟩, [], [], [], [], [],
            [⟨strL "Net Sales (Last 8 Weeks)",
              [⟨some (strL "Tmpl!B2:B9"), some (strL "Tmpl!A2:A9"), none,
                none⟩], 0, 0, none, none⟩]⟩)]
        (strL "Dash") (strL "Out") (strL "Tmpl") true none []).result = .ok (some 1) ∧
    (copy_sheet_from_excel ⟨[⟨strL "Tmpl", 0, 0, 0⟩], 1⟩
        [(strL "Dash",
          ⟨1, 1, fun _ _ => ⟨none, none⟩, [], [], [], [], [],
            [⟨strL "Net Sales (Last 8 Weeks)",
              [⟨some (strL "Tmpl!B2:B9"), some (strL "Tmpl!A2:A9"), none,
                none⟩], 0, 0, none, none⟩]⟩)]
        (strL "Dash") (strL "Out") (strL "Tmpl") true none []).calls.any isCopyToCall = true ∧
    (flattenReqs (copy_sheet_from_excel ⟨[⟨strL "Tmpl", 0, 0, 0⟩], 1⟩
        [(strL "Dash",
          ⟨1, 1, fun _ _ => ⟨none, none⟩, [], [], [], [], [],
            [⟨strL "Net Sales (Last 8 Weeks)",
              [⟨some (strL "Tmpl!B2:B9"), some (strL "Tmpl!A2:A9"), none,
                none⟩], 0, 0, none, none⟩]⟩)]
        (strL "Dash") (strL "Out") (strL "Tmpl") true none []).calls).any isChartReq = true := by
  refine ⟨by decide, by decide, by decide⟩

end SheetsRepl
